import Mathlib

/-!
Verification of the goal-vizualizer CSV metric pipeline.

Shallow embedding of the core data pipeline:
* `src/client/src/utils/transformations.ts` (value transformation layer),
* `src/client/src/utils/normalizeData.ts` plus `formatters.ts` (row normalizer),
* `src/client/src/constants/brandTokens.ts` column-mapping section
  (`autoDetectColumns`, `shouldExcludeHeader`),
* the metric calculation engine (`calculateEntityMetrics`),
* the multi-file data context (`addFile`, `removeFile`, ...),
* the validation layer (`generateValidationSummary`, `validateWithProgress`).

Modelling conventions:
* A JavaScript number is modelled by `JSNum`: a rational together with the
  distinguished values NaN and the two infinities.  Where a computation can
  only involve finite values, plain rationals are used and a bridge lemma
  connects the two (`safeDivide_fin`).
* Rational arithmetic inside executable definitions is written with the
  kernel-reducible operations `qadd`, `qmul`, `qdiv` (built on `Rat.divInt`),
  because the library operations on the rationals are marked irreducible;
  the lemmas `qadd_eq`, `qmul_eq`, `qdiv_eq` identify them with the
  ordinary field operations.
* Fallible parses return `Option` values (`none` models `null`).
* The environment-defined native date parse (`new Date(string)` for
  strings that match none of the explicit formats) is passed in as an
  explicit parameter `np`, since ECMAScript leaves its behaviour for
  non-ISO strings implementation defined.
* JavaScript string operations (`toLowerCase`, `trim`, `includes`, ...)
  are modelled on character lists; only their ASCII behaviour is relevant
  to the source patterns.
-/

namespace GoalViz

/-- A JavaScript number: a finite rational, an infinity, or NaN.
Binary floating point rounding is idealized away (numbers are exact
rationals), but the non-finite values that the source explicitly tests
for with `isFinite`/`isNaN` are kept. -/
inductive JSNum where
  | fin (q : ℚ)
  | posInf
  | negInf
  | nan
deriving DecidableEq, Repr

/-- `isFinite` from JavaScript: true exactly on finite numbers
(false on NaN and both infinities). -/
def JSNum.isFinite : JSNum → Bool
  | .fin _ => true
  | _ => false

/-- Kernel-reducible addition on the rationals (equal to `+`, see
`qadd_eq`). -/
def qadd (a b : ℚ) : ℚ :=
  Rat.divInt (a.num * b.den + b.num * a.den) (a.den * b.den)

/-- Kernel-reducible multiplication on the rationals (equal to `*`, see
`qmul_eq`). -/
def qmul (a b : ℚ) : ℚ :=
  Rat.divInt (a.num * b.num) (a.den * b.den)

/-- Kernel-reducible division on the rationals (equal to `/`, see
`qdiv_eq`; both send a zero denominator to zero). -/
def qdiv (a b : ℚ) : ℚ :=
  Rat.divInt (a.num * b.den) (a.den * b.num)

/-- JavaScript division on `JSNum` (sign of zero is not modelled;
the only consumer, `safeDivide`, guards the zero-denominator case away). -/
def jsDiv : JSNum → JSNum → JSNum
  | .nan, _ => .nan
  | _, .nan => .nan
  | .fin a, .fin b =>
    if b = 0 then (if a = 0 then .nan else if 0 < a then .posInf else .negInf)
    else .fin (qdiv a b)
  | .fin _, .posInf => .fin 0
  | .fin _, .negInf => .fin 0
  | .posInf, .fin b => if b < 0 then .negInf else .posInf
  | .negInf, .fin b => if b < 0 then .posInf else .negInf
  | .posInf, _ => .nan
  | .negInf, _ => .nan

/-- `safeDivide` from `formatters.ts`: returns 0 when the denominator is 0
or non-finite, and 0 when the quotient is non-finite. -/
def safeDivide (numerator denominator : JSNum) : JSNum :=
  if denominator = JSNum.fin 0 ∨ denominator.isFinite = false then JSNum.fin 0
  else
    let result := jsDiv numerator denominator
    if result.isFinite then result else JSNum.fin 0

/-- `safeDivide` specialized to finite operands (used by the metric engine,
whose inputs are modelled as rationals).  `safeDivide_fin` proves it agrees
with `safeDivide` on finite numbers. -/
def safeDivideQ (numerator denominator : ℚ) : ℚ :=
  if denominator = 0 then 0 else qdiv numerator denominator

/-- `calculatePercentage` from `formatters.ts`, specialized to finite
operands: `safeDivide(n, d) * 100`. -/
def calculatePercentageQ (numerator denominator : ℚ) : ℚ :=
  qmul (safeDivideQ numerator denominator) 100

/-- Check that `pat` occurs at the start of `l` (character lists). -/
def listLeads : List Char → List Char → Bool
  | [], _ => true
  | _ :: _, [] => false
  | p :: ps, c :: cs => p == c && listLeads ps cs

/-- Substring containment on character lists. -/
def listHasSub (pat : List Char) : List Char → Bool
  | [] => pat.isEmpty
  | c :: cs => listLeads pat (c :: cs) || listHasSub pat cs

/-- JavaScript `String.prototype.includes`. -/
def strIncludes (s pat : String) : Bool :=
  listHasSub pat.data s.data

/-- JavaScript `toLowerCase`, modelled on ASCII letters. -/
def strLower (s : String) : String :=
  String.mk (s.data.map Char.toLower)

/-- Characters treated as whitespace by the JavaScript `trim` and the
whitespace character class (ASCII fragment). -/
def isWsChar (c : Char) : Bool := c.isWhitespace

/-- JavaScript `String.prototype.trim`. -/
def strTrim (s : String) : String :=
  String.mk (((s.data.dropWhile isWsChar).reverse.dropWhile isWsChar).reverse)

/-- Split a character list on a single separator character (used to model
the anchored date regular expressions, whose groups contain no separator
characters). -/
def splitOnChar (sep : Char) : List Char → List (List Char)
  | [] => [[]]
  | x :: xs =>
    let r := splitOnChar sep xs
    if x == sep then [] :: r
    else
      match r with
      | [] => [[x]]
      | g :: gs => (x :: g) :: gs

/-- Numeric value of an ASCII digit character. -/
def digitVal (c : Char) : Nat := c.toNat - 48

/-- Value of a list of ASCII digit characters read in base 10. -/
def digitsToNat (ds : List Char) : Nat :=
  ds.foldl (fun a c => a * 10 + digitVal c) 0

/-- Exponent part of a JavaScript float literal: optional sign followed by
digits; yields 0 when no digit follows (`parseFloat("1e")` is `1`). -/
def parseExp (cs : List Char) : Int :=
  let signed : Int × List Char :=
    match cs with
    | '+' :: r => (1, r)
    | '-' :: r => (-1, r)
    | r => (1, r)
  let ds := signed.2.takeWhile Char.isDigit
  if ds.isEmpty then 0 else signed.1 * (digitsToNat ds : Int)

/-- JavaScript `parseFloat`: skips leading whitespace, then reads the
longest prefix that is a signed decimal literal (with optional fraction and
exponent) or the literal `Infinity`; anything else gives NaN.  The value
`sign * (I + F / 10 ^ f) * 10 ^ e` is assembled as one exact rational. -/
def parseFloat (s : String) : JSNum :=
  let cs0 := s.data.dropWhile isWsChar
  let signed : Int × List Char :=
    match cs0 with
    | '+' :: r => (1, r)
    | '-' :: r => (-1, r)
    | r => (1, r)
  let sgn := signed.1
  let cs := signed.2
  if cs.take 8 = "Infinity".data then
    if sgn = 1 then JSNum.posInf else JSNum.negInf
  else
    let intPart := cs.takeWhile Char.isDigit
    let rest1 := cs.dropWhile Char.isDigit
    let fracAndRest : List Char × List Char :=
      match rest1 with
      | '.' :: r => (r.takeWhile Char.isDigit, r.dropWhile Char.isDigit)
      | r => ([], r)
    let fracPart := fracAndRest.1
    if intPart.isEmpty ∧ fracPart.isEmpty then JSNum.nan
    else
      let expVal : Int :=
        match fracAndRest.2 with
        | 'e' :: r => parseExp r
        | 'E' :: r => parseExp r
        | _ => 0
      let base : Int :=
        (digitsToNat intPart * 10 ^ fracPart.length + digitsToNat fracPart : Nat)
      JSNum.fin
        (mkRat (sgn * base * (10 ^ expVal.toNat : Nat))
          (10 ^ fracPart.length * 10 ^ (-expVal).toNat))

/-- Round like JavaScript `Math.round`: floor of `q + 1/2`. -/
def jsRound (q : ℚ) : Int := Int.floor (qadd q (mkRat 1 2))

/-- A raw CSV cell value (`string | number | boolean | null` in the
source types).  Numbers are modelled as exact rationals. -/
inductive CellValue where
  | str (s : String)
  | num (q : ℚ)
  | boolVal (b : Bool)
  | nullVal
deriving DecidableEq, Repr

/-- JavaScript truthiness of a cell value: the empty string, the number 0,
`false` and `null` are falsy. -/
def CellValue.truthy : CellValue → Bool
  | .str s => !(s == "")
  | .num q => !(q == 0)
  | .boolVal b => b
  | .nullVal => false

/-- Bounded search for the smallest `k` with `den` dividing `10 ^ k`,
carrying the running power of ten. -/
def findScaleGo (den : Nat) : Nat → Nat → Nat → Option Nat
  | 0, _, _ => none
  | fuel + 1, k, pow =>
    if pow % den = 0 then some k else findScaleGo den fuel (k + 1) (pow * 10)

/-- Smallest power of ten divisible by `den` (exists whenever `den` divides
a power of ten, in particular for every denominator reachable from a binary
floating point number).  The search bound is far beyond the 1074 binary
digits a double can need. -/
def findScale (den : Nat) : Option Nat :=
  findScaleGo den 1200 0 1

/-- Left-pad a digit string with zeros to length `k`. -/
def padZeros (s : String) (k : Nat) : String :=
  String.mk (List.replicate (k - s.length) '0') ++ s

/-- JavaScript number-to-string conversion, for the values the pipeline can
hold: integers print as decimal integers and other terminating decimals
print in positional notation.  (Exponential notation for magnitudes at or
beyond 1e21 or below 1e-6, and rationals with no terminating decimal
expansion, which no binary double represents, are outside the model.) -/
def jsNumToString (q : ℚ) : String :=
  if q.den = 1 then toString q.num
  else
    match findScale q.den with
    | some k =>
      let sign := if q.num < 0 then "-" else ""
      let scaled : Nat := q.num.natAbs * (10 ^ k) / q.den
      let whole := scaled / 10 ^ k
      let frac := scaled % 10 ^ k
      sign ++ toString whole ++ "." ++ padZeros (toString frac) k
    | none => "(nonterminating)"

/-- JavaScript `String(value)` conversion of a cell value. -/
def cellToString : CellValue → String
  | .str s => s
  | .num q => jsNumToString q
  | .boolVal b => if b then "true" else "false"
  | .nullVal => "null"

/-- `String(value ?? "")`: like `cellToString` but null becomes the empty
string (used by the sampling helpers, which coalesce before converting). -/
def toStrCoalesce : CellValue → String
  | .nullVal => ""
  | v => cellToString v

/-- A raw CSV row: an association list from header strings to cell values
(`row[h]` is the first binding, `none` modelling `undefined`). -/
def RawRow : Type := List (String × CellValue)

instance : DecidableEq RawRow := by
  unfold RawRow
  infer_instance

/-- JavaScript property access `row[header]`. -/
def jsIndex (row : RawRow) (header : String) : Option CellValue :=
  (List.find? (fun p => p.1 == header) row).map (fun p => p.2)

/-- Truthiness of `row[header]` (an absent key is falsy). -/
def lookupTruthy (v : Option CellValue) : Bool :=
  match v with
  | none => false
  | some c => c.truthy

/-- The character filter of `parseNumeric` in `formatters.ts`:
`value.trim().replace(/[\x24,\s%]/g, "")` removes dollar signs, commas,
whitespace and percent signs. -/
def stripNumericChars (s : String) : String :=
  String.mk ((strTrim s).data.filter
    (fun c => !(c == '$' || c == ',' || isWsChar c || c == '%')))

/-- `parseNumeric` from `formatters.ts`: numbers pass through (NaN would
become 0, but cells hold finite rationals), strings are cleaned and parsed
with `parseFloat` (NaN becomes 0), and every other value becomes 0. -/
def parseNumeric : Option CellValue → JSNum
  | some (.num q) => JSNum.fin q
  | some (.str s) =>
    match parseFloat (stripNumericChars s) with
    | JSNum.nan => JSNum.fin 0
    | v => v
  | _ => JSNum.fin 0

end GoalViz

namespace GoalViz

/-- The canonical fields of `ColumnMapping`. -/
inductive Field where
  | entity | spend | leads | quotes | sales
  | clicks | impressions | contacted | calls | policyItems | premium
  | date | quoteCpa | policyCpa
deriving DecidableEq, Repr

/-- The key order of the `COLUMN_PATTERNS` object literal, which is the
iteration order of `Object.keys` in `autoDetectColumns`. -/
def fieldOrder : List Field :=
  [.entity, .spend, .leads, .quotes, .sales, .clicks, .impressions,
   .contacted, .calls, .policyItems, .premium, .date, .quoteCpa, .policyCpa]

/-- `COLUMN_PATTERNS` from `brandTokens.ts` (ordered candidate name
patterns per canonical field, most specific first). -/
def COLUMN_PATTERNS : Field → List String
  | .entity =>
    ["campaign", "source", "vendor", "channel", "entity", "name",
     "provider", "competitor"]
  | .spend =>
    ["total spend", "ad spend", "advertising spend", "spend", "total cost",
     "cost", "budget"]
  | .leads => ["total leads", "lead count", "number of leads", "leads"]
  | .quotes =>
    ["total quotes", "quote count", "number of quotes", "quotes", "quote",
     "quoted"]
  | .sales =>
    ["total sales", "policy count", "bound hh", "bound households", "sales",
     "policies", "policy", "binds", "closed", "bound", "bounds",
     "households", "hh"]
  | .clicks => ["total clicks", "click count", "number of clicks", "clicks"]
  | .impressions =>
    ["total impressions", "impression count", "impressions", "impr", "views"]
  | .contacted =>
    ["leads contacted", "contact count", "contacts made", "contacted"]
  | .calls =>
    ["inbound calls", "phone calls", "call count", "total calls", "calls"]
  | .policyItems =>
    ["policy items sold", "policy items", "items sold", "policies sold",
     "item count"]
  | .premium =>
    ["total premium", "premium generated", "premium", "policy rev",
     "policy revenue", "total revenue", "revenue"]
  | .date => ["date", "day", "week", "month", "period", "time", "timestamp"]
  | .quoteCpa => ["quote cpa", "cpq", "cost per quote"]
  | .policyCpa =>
    ["policy cpa", "cpa", "cost per acquisition", "cost per sale",
     "cost per policy"]

/-- `EXCLUDE_PATTERNS`: derived-metric markers that disqualify a header
from matching a raw count field. -/
def EXCLUDE_PATTERNS : List String :=
  ["cvr", "cpl", "cpc", "cpi", "rate", "ratio", "%", "percent", "conversion"]

/-- `CPA_PATTERNS`: cost-per-acquisition markers, detected for the
`quoteCpa`/`policyCpa` fields but excluded from every other field. -/
def CPA_PATTERNS : List String := ["cpa", "cpq", "cost per"]

/-- `shouldExcludeHeader` from `brandTokens.ts`. -/
def shouldExcludeHeader (header : String) (field : Field) : Bool :=
  let lower := strLower header
  if field = Field.quoteCpa ∨ field = Field.policyCpa then false
  else if CPA_PATTERNS.any (fun pattern => strIncludes lower pattern) then true
  else EXCLUDE_PATTERNS.any (fun pattern => strIncludes lower pattern)

/-- One pattern pass of `autoDetectColumns`: for each pattern in order,
find the first header that matches it (exactly if `exact`, else by
containment), is unused, and is not excluded. -/
def matchPass (headers used : List String) (field : Field)
    (exact : Bool) : List String → Option String
  | [] => none
  | pattern :: rest =>
    match headers.find? (fun h =>
        let lower := strTrim (strLower h)
        (if exact then lower == pattern else strIncludes lower pattern) &&
          !used.contains h && !shouldExcludeHeader h field) with
    | some h => some h
    | none => matchPass headers used field exact rest

/-- Resolution of one canonical field: exact pass over the patterns first,
then the containment pass (the two loops of `autoDetectColumns`). -/
def detectField (headers used : List String) (field : Field) : Option String :=
  match matchPass headers used field true (COLUMN_PATTERNS field) with
  | some h => some h
  | none => matchPass headers used field false (COLUMN_PATTERNS field)

/-- The field loop of `autoDetectColumns`, threading the set of already
claimed headers. -/
def autoDetectGo (headers : List String) :
    List Field → List String → List (Field × String)
  | [], _ => []
  | f :: fs, used =>
    match detectField headers used f with
    | some h => (f, h) :: autoDetectGo headers fs (h :: used)
    | none => autoDetectGo headers fs used

/-- `autoDetectColumns` from `brandTokens.ts`: the returned partial mapping,
represented as the association list of resolved (field, header) pairs. -/
def autoDetectColumns (headers : List String) : List (Field × String) :=
  autoDetectGo headers fieldOrder []

/-- Read one field off the partial mapping produced by `autoDetectColumns`. -/
def mappingLookup (m : List (Field × String)) (f : Field) : Option String :=
  (m.find? (fun p => p.1 == f)).map (fun p => p.2)

/-- A JavaScript `Date`, abstracted to its local calendar components:
`year`/`month`/`day` are the values of `getFullYear`/`getMonth`/`getDate`
(the month is 0-based, as in JavaScript). -/
structure JSDate where
  year : Int
  month : Int
  day : Int
deriving DecidableEq, Repr

/-- Day count since 1970-01-01 of a proleptic Gregorian civil date
(`m` is 1-based here).  Standard civil-calendar arithmetic. -/
def daysFromCivil (y m d : Int) : Int :=
  let y1 := if m ≤ 2 then y - 1 else y
  let era := y1.fdiv 400
  let yoe := y1 - era * 400
  let mp := m + (if 2 < m then -3 else 9)
  let doy := (153 * mp + 2).fdiv 5 + d - 1
  let doe := yoe * 365 + yoe.fdiv 4 - yoe.fdiv 100 + doy
  era * 146097 + doe - 719468

/-- Inverse of `daysFromCivil`: civil date (1-based month) of a day count
since 1970-01-01. -/
def civilFromDays (z0 : Int) : Int × Int × Int :=
  let z := z0 + 719468
  let era := z.fdiv 146097
  let doe := z - era * 146097
  let yoe := (doe - doe.fdiv 1460 + doe.fdiv 36524 - doe.fdiv 146096).fdiv 365
  let y := yoe + era * 400
  let doy := doe - (365 * yoe + yoe.fdiv 4 - yoe.fdiv 100)
  let mp := (5 * doy + 2).fdiv 153
  let d := doy - (153 * mp + 2).fdiv 5 + 1
  let m := mp + (if mp < 10 then 3 else -9)
  (y + (if m ≤ 2 then 1 else 0), m, d)

/-- The JavaScript `new Date(year, monthIndex, day)` constructor:
a year argument between 0 and 99 means 1900 + year, and out-of-range
month/day components overflow into adjacent months and years.  The
post-9999 range cutoff of real `Date` is irrelevant here because every
caller passes a year parsed from at most four digits. -/
def mkJSDate (yearArg monthIdx day : Int) : JSDate :=
  let y0 := if 0 ≤ yearArg ∧ yearArg ≤ 99 then yearArg + 1900 else yearArg
  let ym := y0 * 12 + monthIdx
  let y1 := ym.fdiv 12
  let m1 := ym - 12 * y1
  let civil := civilFromDays (daysFromCivil y1 (m1 + 1) 1 + (day - 1))
  { year := civil.1, month := civil.2.1 - 1, day := civil.2.2 }

/-- The round-trip calendar validation of `parseDateWithFormat`: construct
`new Date(year, month - 1, day)` and require `getFullYear`/`getMonth`/
`getDate` to return exactly the parsed components. -/
def checkedDate (year month day : Int) : Option JSDate :=
  let date := mkJSDate year (month - 1) day
  if date.year = year ∧ date.month = month - 1 ∧ date.day = day then some date
  else none

/-- The date format names of the `DateFormat` union type.  `unknownFmt`
stands for any other string cast into the type: `DATE_PATTERNS[format]` is
then `undefined`, `match(undefined)` matches every string, and the switch
falls through to `return null`. -/
inductive DateFormat where
  | auto
  | MMDDYYYY
  | DDMMYYYY
  | YYYYMMDD
  | MDYYYY
  | MDYY
  | MMDDYYYYdash
  | DDMMYYYYdash
  | unknownFmt
deriving DecidableEq, Repr

/-- Regular expression group `(0?[1-9]|1[0-2])`: a 1- or 2-digit month with
optional leading zero. -/
def reMM (cs : List Char) : Option Int :=
  match cs with
  | [c] => if '1' ≤ c ∧ c ≤ '9' then some (digitVal c : Int) else none
  | ['0', c] => if '1' ≤ c ∧ c ≤ '9' then some (digitVal c : Int) else none
  | ['1', c] => if '0' ≤ c ∧ c ≤ '2' then some (10 + digitVal c : Int) else none
  | _ => none

/-- Regular expression group `(0?[1-9]|[12]\d|3[01])`: a 1- or 2-digit day
with optional leading zero. -/
def reDD (cs : List Char) : Option Int :=
  match cs with
  | [c] => if '1' ≤ c ∧ c ≤ '9' then some (digitVal c : Int) else none
  | ['0', c] => if '1' ≤ c ∧ c ≤ '9' then some (digitVal c : Int) else none
  | ['1', c] => if c.isDigit then some (10 + digitVal c : Int) else none
  | ['2', c] => if c.isDigit then some (20 + digitVal c : Int) else none
  | ['3', c] => if c = '0' ∨ c = '1' then some (30 + digitVal c : Int) else none
  | _ => none

/-- Regular expression group `([1-9]|1[0-2])`: a month with no leading
zero allowed. -/
def reM (cs : List Char) : Option Int :=
  match cs with
  | [c] => if '1' ≤ c ∧ c ≤ '9' then some (digitVal c : Int) else none
  | ['1', c] => if '0' ≤ c ∧ c ≤ '2' then some (10 + digitVal c : Int) else none
  | _ => none

/-- Regular expression group `([1-9]|[12]\d|3[01])`: a day with no leading
zero allowed. -/
def reD (cs : List Char) : Option Int :=
  match cs with
  | [c] => if '1' ≤ c ∧ c ≤ '9' then some (digitVal c : Int) else none
  | ['1', c] => if c.isDigit then some (10 + digitVal c : Int) else none
  | ['2', c] => if c.isDigit then some (20 + digitVal c : Int) else none
  | ['3', c] => if c = '0' ∨ c = '1' then some (30 + digitVal c : Int) else none
  | _ => none

/-- Regular expression group `(\d{4})`. -/
def reYYYY (cs : List Char) : Option Int :=
  if cs.length = 4 ∧ cs.all Char.isDigit then some (digitsToNat cs : Int)
  else none

/-- Regular expression group `(\d{2})`. -/
def reYY (cs : List Char) : Option Int :=
  if cs.length = 2 ∧ cs.all Char.isDigit then some (digitsToNat cs : Int)
  else none

/-- The non-auto branch of `parseDateWithFormat`: anchored pattern match
(the groups contain no separator characters, so matching the whole string
against `^A sep B sep C$` is the same as splitting on the separator and
matching the three parts), component extraction in the format order, and
round-trip calendar validation. -/
def parseDateNonAuto (trimmed : String) : DateFormat → Option JSDate
  | .MMDDYYYY =>
    match splitOnChar '/' trimmed.data with
    | [a, b, c] => do
      let m ← reMM a
      let d ← reDD b
      let y ← reYYYY c
      checkedDate y m d
    | _ => none
  | .DDMMYYYY =>
    match splitOnChar '/' trimmed.data with
    | [a, b, c] => do
      let d ← reDD a
      let m ← reMM b
      let y ← reYYYY c
      checkedDate y m d
    | _ => none
  | .YYYYMMDD =>
    match splitOnChar '-' trimmed.data with
    | [a, b, c] => do
      let y ← reYYYY a
      let m ← reMM b
      let d ← reDD c
      checkedDate y m d
    | _ => none
  | .MDYYYY =>
    match splitOnChar '/' trimmed.data with
    | [a, b, c] => do
      let m ← reM a
      let d ← reD b
      let y ← reYYYY c
      checkedDate y m d
    | _ => none
  | .MDYY =>
    match splitOnChar '/' trimmed.data with
    | [a, b, c] => do
      let m ← reM a
      let d ← reD b
      let y ← reYY c
      checkedDate (y + 2000) m d
    | _ => none
  | .MMDDYYYYdash =>
    match splitOnChar '-' trimmed.data with
    | [a, b, c] => do
      let m ← reMM a
      let d ← reDD b
      let y ← reYYYY c
      checkedDate y m d
    | _ => none
  | .DDMMYYYYdash =>
    match splitOnChar '-' trimmed.data with
    | [a, b, c] => do
      let d ← reDD a
      let m ← reMM b
      let y ← reYYYY c
      checkedDate y m d
    | _ => none
  | _ => none

/-- One fixed-format attempt including the guards that
`parseDateWithFormat` runs before dispatching (empty, `n/a` and `-`
inputs are null).  `parseAutoDate` calls back into `parseDateWithFormat`
with a non-auto format, which is exactly this function. -/
def parseDateFixed (value : String) (format : DateFormat) : Option JSDate :=
  let trimmed := strTrim value
  if trimmed = "" ∨ strLower trimmed = "n/a" ∨ trimmed = "-" then none
  else parseDateNonAuto trimmed format

/-- The fixed priority order `parseAutoDate` tries. -/
def autoDateFormats : List DateFormat :=
  [.YYYYMMDD, .MMDDYYYY, .MDYYYY, .MDYY, .DDMMYYYY, .MMDDYYYYdash,
   .DDMMYYYYdash]

/-- `parseAutoDate` from `transformations.ts`: try the explicit formats in
order, then fall back to the native `new Date(string)` parse `np`, but only
for strings containing a separator or an alphabetic character (so purely
numeric strings are never treated as dates). -/
def parseAutoDate (np : String → Option JSDate) (value : String) :
    Option JSDate :=
  match autoDateFormats.findSome? (fun f => parseDateFixed value f) with
  | some d => some d
  | none =>
    if value.data.any (fun c => c = '/' ∨ c = '-' ∨ isWsChar c) ∨
        value.data.any (fun c => c.isAlpha) then
      np value
    else none

/-- `parseDateWithFormat` from `transformations.ts`. -/
def parseDateWithFormat (np : String → Option JSDate) (value : String)
    (format : DateFormat) : Option JSDate :=
  let trimmed := strTrim value
  if trimmed = "" ∨ strLower trimmed = "n/a" ∨ trimmed = "-" then none
  else
    match format with
    | .auto => parseAutoDate np trimmed
    | f => parseDateNonAuto trimmed f

/-- The number format names of the `NumberFormat` union type.  Any other
string cast into the type reaches the default switch branch, whose
cleaning is identical to the `plain` branch, so the conversion
`toNumberFormat` maps unknown names to `plain`. -/
inductive NumberFormat where
  | auto
  | plain
  | currency
  | percentage
  | european
deriving DecidableEq, Repr

/-- A currency symbol (`$`, the euro sign, or the pound sign). -/
def isCurrencyChar (c : Char) : Bool :=
  c == '$' || c == '€' || c == '£'

/-- Tail of the European number pattern after the leading digit group:
zero or more `.` + three digits groups, then `,` + one or more digits. -/
def euroTail : List Char → Bool
  | ',' :: rest => !rest.isEmpty && rest.all Char.isDigit
  | '.' :: a :: b :: c :: rest =>
    a.isDigit && b.isDigit && c.isDigit && euroTail rest
  | _ => false

/-- The anchored European pattern `^\d{1,3}(\.\d{3})*,\d+$`. -/
def isEuropeanNumber (s : String) : Bool :=
  let cs := s.data
  let ds := cs.takeWhile Char.isDigit
  decide (1 ≤ ds.length ∧ ds.length ≤ 3) && euroTail (cs.drop ds.length)

/-- The anchored pattern `^-?\d+\.?\d*$` applied after removing commas
(the `plain` test of `detectNumberFormat`). -/
def isPlainNumber (s : String) : Bool :=
  let cs0 := s.data.filter (fun c => !(c == ','))
  let cs := match cs0 with
    | '-' :: r => r
    | r => r
  let ds := cs.takeWhile Char.isDigit
  !ds.isEmpty &&
    (match cs.drop ds.length with
     | [] => true
     | '.' :: r => r.all Char.isDigit
     | _ => false)

/-- Replace every dot, then the first comma by a dot: the `european`
cleaning step `.replace(/\./g, "").replace(",", ".")` (a string pattern
replaces only the first occurrence in JavaScript). -/
def euroClean (cs : List Char) : List Char :=
  let noDots := cs.filter (fun c => !(c == '.'))
  match splitOnChar ',' noDots with
  | [] => noDots
  | [g] => g
  | g :: g2 :: gs =>
    g ++ '.' :: (List.intercalate [','] (g2 :: gs))

/-- NaN results become null: models `isNaN(parsed) ? null : parsed`. -/
def floatOrNull (x : JSNum) : Option JSNum :=
  if x = JSNum.nan then none else some x

/-- One fixed-format attempt of `parseNumberWithFormat`, including its
guards (empty, `n/a` and `-` inputs are null).  `parseAutoNumber` calls
back into `parseNumberWithFormat` with a non-auto format, which is exactly
this function. -/
def parseNumberFixed (value : String) (format : NumberFormat) :
    Option JSNum :=
  let strValue := strTrim value
  if strValue = "" ∨ strLower strValue = "n/a" ∨ strValue = "-" then none
  else
    let cleaned : List Char :=
      match format with
      | .currency =>
        strValue.data.filter (fun c => !(isCurrencyChar c || c == ',' || isWsChar c))
      | .percentage =>
        strValue.data.filter (fun c => !(c == '%' || isWsChar c))
      | .european => euroClean (strValue.data.filter (fun c => !(isWsChar c)))
      | _ =>
        strValue.data.filter (fun c => c.isDigit || c == '.' || c == '-')
    floatOrNull (parseFloat (String.mk cleaned))

/-- The test `/^[\x24€£]/.test(value) || /[\x24€£]$/.test(value)`:
a currency symbol at the start or the end. -/
def hasCurrencyMark (s : String) : Bool :=
  (match s.data.head? with
   | some c => isCurrencyChar c
   | none => false) ||
  (match s.data.getLast? with
   | some c => isCurrencyChar c
   | none => false)

/-- The test `value.endsWith("%")`. -/
def endsWithPercent (s : String) : Bool :=
  match s.data.getLast? with
  | some c => c == '%'
  | none => false

/-- `parseAutoNumber` from `transformations.ts`: European pattern first,
then currency symbol prefix/suffix, then percent suffix, and otherwise the
`currency` cleaning (which strips thousands-separator commas). -/
def parseAutoNumber (value : String) : Option JSNum :=
  if isEuropeanNumber value then parseNumberFixed value .european
  else if hasCurrencyMark value then parseNumberFixed value .currency
  else if endsWithPercent value then parseNumberFixed value .percentage
  else parseNumberFixed value .currency

/-- `parseNumberWithFormat` from `transformations.ts`. -/
def parseNumberWithFormat (value : String) (format : NumberFormat) :
    Option JSNum :=
  let strValue := strTrim value
  if strValue = "" ∨ strLower strValue = "n/a" ∨ strValue = "-" then none
  else
    match format with
    | .auto => parseAutoNumber strValue
    | f => parseNumberFixed strValue f

end GoalViz

namespace GoalViz

/-- The `FieldType` union: `date | number | text`. -/
inductive FieldType where
  | date
  | number
  | text
deriving DecidableEq, Repr

/-- A `FieldTransformation`: a field type plus an optional format name
string. -/
structure FieldTransformation where
  type : FieldType
  format : Option String
deriving DecidableEq, Repr

/-- The cast `(config.format as DateFormat) || "auto"`: a missing or empty
format is `auto`, the known names map to their formats, and any other
string behaves as `unknownFmt` (the pattern lookup yields `undefined` and
the parse returns null). -/
def toDateFormat : Option String → DateFormat
  | none => .auto
  | some s =>
    if s = "" then .auto
    else if s = "auto" then .auto
    else if s = "MM/DD/YYYY" then .MMDDYYYY
    else if s = "DD/MM/YYYY" then .DDMMYYYY
    else if s = "YYYY-MM-DD" then .YYYYMMDD
    else if s = "M/D/YYYY" then .MDYYYY
    else if s = "M/D/YY" then .MDYY
    else if s = "MM-DD-YYYY" then .MMDDYYYYdash
    else if s = "DD-MM-YYYY" then .DDMMYYYYdash
    else .unknownFmt

/-- The cast `(config.format as NumberFormat) || "auto"`: missing or empty
is `auto`; unknown names reach the default switch branch, whose cleaning
equals the `plain` branch. -/
def toNumberFormat : Option String → NumberFormat
  | none => .auto
  | some s =>
    if s = "" then .auto
    else if s = "auto" then .auto
    else if s = "plain" then .plain
    else if s = "currency" then .currency
    else if s = "percentage" then .percentage
    else if s = "european" then .european
    else .plain

/-- A transformed cell value: the text branch returns the trimmed string,
the number branch a number, and the date branch an ISO string, abstracted
here to the date it denotes. -/
inductive TransformedValue where
  | tvStr (s : String)
  | tvNum (n : JSNum)
  | tvDate (d : JSDate)
deriving DecidableEq, Repr

/-- `applyTransformation` from `transformations.ts` (null models both
`null` results and the null/undefined/blank guards). -/
def applyTransformation (np : String → Option JSDate)
    (value : Option CellValue) (config : FieldTransformation) :
    Option TransformedValue :=
  match value with
  | none => none
  | some CellValue.nullVal => none
  | some v =>
    let strValue := strTrim (cellToString v)
    if strValue = "" ∨ strLower strValue = "n/a" ∨ strValue = "-" then none
    else
      match config.type with
      | .date =>
        (parseDateWithFormat np strValue (toDateFormat config.format)).map
          TransformedValue.tvDate
      | .number =>
        (parseNumberWithFormat strValue (toNumberFormat config.format)).map
          TransformedValue.tvNum
      | .text => some (TransformedValue.tvStr strValue)

/-- Result type of `detectDateFormat`. -/
structure DateFormatDetection where
  format : DateFormat
  confidence : ℚ
  sampleMatches : Nat
deriving DecidableEq, Repr

/-- Result type of `detectNumberFormat`. -/
structure NumberFormatDetection where
  format : NumberFormat
  confidence : ℚ
  sampleMatches : Nat
deriving DecidableEq, Repr

/-- Result type of `detectFieldType`. -/
structure FieldTypeDetection where
  type : FieldType
  confidence : ℚ
  dateFormat : Option DateFormat
  numberFormat : Option NumberFormat
deriving DecidableEq, Repr

/-- The candidate formats `detectDateFormat` scores. -/
def detectDateFormatCandidates : List DateFormat :=
  [.MMDDYYYY, .DDMMYYYY, .YYYYMMDD, .MDYYYY, .MDYY, .MMDDYYYYdash,
   .DDMMYYYYdash]

/-- `detectDateFormat` from `transformations.ts`: keeps the first format
with the strictly largest number of parsing samples (at most the first 20
non-blank string samples are considered). -/
def detectDateFormat (np : String → Option JSDate) (samples : List CellValue) :
    DateFormatDetection :=
  let validSamples :=
    ((samples.filterMap (fun s =>
        match s with
        | CellValue.str t => if strTrim t = "" then none else some t
        | _ => none))).take 20
  if validSamples.isEmpty then
    { format := .auto, confidence := 0, sampleMatches := 0 }
  else
    let best := detectDateFormatCandidates.foldl
      (fun acc f =>
        let hits := validSamples.countP
          (fun s => (parseDateWithFormat np s f).isSome)
        if acc.2 < hits then (f, hits) else acc)
      (DateFormat.auto, 0)
    { format := best.1,
      confidence := mkRat best.2 validSamples.length,
      sampleMatches := best.2 }

/-- The sample cleaning shared by `detectNumberFormat`:
`String(s ?? "").trim()` then drop blanks and `n/a` (the `-` value is kept
here, unlike in `detectFieldType`), then the first 20. -/
def numberSamples (samples : List CellValue) : List String :=
  ((samples.map (fun s => strTrim (toStrCoalesce s))).filter
    (fun s => s.length > 0 && !(strLower s == "n/a"))).take 20

/-- `detectNumberFormat` from `transformations.ts`: classify each sample by
the chained tests (currency, else percentage, else European, else plain),
then pick the format with the most matches; a descending stable sort makes
ties resolve in the order currency, percentage, european, plain. -/
def detectNumberFormat (samples : List CellValue) : NumberFormatDetection :=
  let validSamples := numberSamples samples
  if validSamples.isEmpty then
    { format := .auto, confidence := 0, sampleMatches := 0 }
  else
    let currencyCount := validSamples.countP (fun s => hasCurrencyMark s)
    let percentageCount := validSamples.countP (fun s =>
      !hasCurrencyMark s && endsWithPercent s)
    let europeanCount := validSamples.countP (fun s =>
      !hasCurrencyMark s && !endsWithPercent s && isEuropeanNumber s)
    let plainCount := validSamples.countP (fun s =>
      !hasCurrencyMark s && !endsWithPercent s && !isEuropeanNumber s &&
        isPlainNumber s)
    let best := [(NumberFormat.percentage, percentageCount),
                 (NumberFormat.european, europeanCount),
                 (NumberFormat.plain, plainCount)].foldl
      (fun acc fc => if acc.2 < fc.2 then fc else acc)
      (NumberFormat.currency, currencyCount)
    if best.2 = 0 then
      { format := .auto, confidence := 0, sampleMatches := 0 }
    else
      { format := best.1,
        confidence := mkRat best.2 validSamples.length,
        sampleMatches := best.2 }

/-- The sample cleaning of `detectFieldType`: `String(s ?? "").trim()`,
drop blanks, `n/a` and `-`, then the first 20. -/
def typeSamples (samples : List CellValue) : List String :=
  ((samples.map (fun s => strTrim (toStrCoalesce s))).filter
    (fun s => s.length > 0 && !(strLower s == "n/a") && !(s == "-"))).take 20

/-- `detectFieldType` from `transformations.ts`: date wins at a 70% parse
rate, else number at a 70% parse rate, else text.  The JavaScript literal
0.7 is the double nearest to 7/10; with at most 20 samples every possible
ratio is at least one double-ulp away from the cutoff except 7/10 itself,
which rounds to the same double, so the rational comparison agrees with
the floating point one. -/
def detectFieldType (np : String → Option JSDate) (samples : List CellValue) :
    FieldTypeDetection :=
  let validSamples := typeSamples samples
  if validSamples.isEmpty then
    { type := .text, confidence := 0, dateFormat := none, numberFormat := none }
  else
    let dateMatches := validSamples.countP
      (fun s => (parseAutoDate np s).isSome)
    if mkRat 7 10 ≤ mkRat dateMatches validSamples.length then
      { type := .date,
        confidence := mkRat dateMatches validSamples.length,
        dateFormat := some (detectDateFormat np samples).format,
        numberFormat := none }
    else
      let numberMatches := validSamples.countP
        (fun s => (parseAutoNumber s).isSome)
      if mkRat 7 10 ≤ mkRat numberMatches validSamples.length then
        { type := .number,
          confidence := mkRat numberMatches validSamples.length,
          dateFormat := none,
          numberFormat := some (detectNumberFormat samples).format }
      else
        { type := .text, confidence := 1, dateFormat := none,
          numberFormat := none }

/-- A `Partial<ColumnMapping>`: each canonical field optionally names a raw
header.  The `date` field is omitted from the model: the normalizer only
feeds it to the environment-defined permissive `new Date(value)`
constructor, and no claim concerns it. -/
structure ColumnMapping where
  entity : Option String := none
  spend : Option String := none
  leads : Option String := none
  quotes : Option String := none
  sales : Option String := none
  clicks : Option String := none
  impressions : Option String := none
  contacted : Option String := none
  calls : Option String := none
  policyItems : Option String := none
  premium : Option String := none
  quoteCpa : Option String := none
  policyCpa : Option String := none
deriving DecidableEq, Repr

/-- Truthiness of `mapping.field`: present and not the empty string. -/
def headerTruthy : Option String → Bool
  | none => false
  | some s => !(s == "")

/-- A required numeric field of `normalizeRow`:
`mapping.f ? parseNumeric(row[mapping.f]) : 0`. -/
def reqField (row : RawRow) (mh : Option String) : JSNum :=
  match mh with
  | some h => if h == "" then JSNum.fin 0 else parseNumeric (jsIndex row h)
  | none => JSNum.fin 0

/-- An optional numeric field of `normalizeRow`:
`mapping.f ? parseNumeric(row[mapping.f]) : undefined`; the spread
`...(x !== undefined && { x })` then keeps exactly the `some` values. -/
def optField (row : RawRow) (mh : Option String) : Option JSNum :=
  match mh with
  | some h => if h == "" then none else some (parseNumeric (jsIndex row h))
  | none => none

/-- A `NormalizedRow` as produced by `normalizeRow` (without the optional
`date`, see `ColumnMapping`). -/
structure NormalizedRow where
  entity : String
  spend : JSNum
  leads : JSNum
  quotes : JSNum
  sales : JSNum
  clicks : Option JSNum := none
  impressions : Option JSNum := none
  contacted : Option JSNum := none
  calls : Option JSNum := none
  policyItems : Option JSNum := none
  premium : Option JSNum := none
  quoteCpa : Option JSNum := none
  policyCpa : Option JSNum := none
deriving DecidableEq, Repr

/-- `normalizeRow` from `normalizeData.ts`. -/
def normalizeRow (row : RawRow) (mapping : ColumnMapping) :
    Option NormalizedRow :=
  match mapping.entity with
  | none => none
  | some entityHeader =>
    if entityHeader == "" then none
    else
      match jsIndex row entityHeader with
      | none => none
      | some entityValue =>
        if entityValue.truthy = false then none
        else
          let entity := strTrim (cellToString entityValue)
          if entity == "" then none
          else
            some
              { entity := entity
                spend := reqField row mapping.spend
                leads := reqField row mapping.leads
                quotes := reqField row mapping.quotes
                sales := reqField row mapping.sales
                clicks := optField row mapping.clicks
                impressions := optField row mapping.impressions
                contacted := optField row mapping.contacted
                calls := optField row mapping.calls
                policyItems := optField row mapping.policyItems
                premium := optField row mapping.premium
                quoteCpa := optField row mapping.quoteCpa
                policyCpa := optField row mapping.policyCpa }

/-- Spec-side characterization of the rows `normalizeRow` keeps: the
entity field maps to a non-empty header, the cell under that header is
present and truthy, and its string form does not trim to the empty
string. -/
def entityResolves (row : RawRow) (mapping : ColumnMapping) : Bool :=
  match mapping.entity with
  | none => false
  | some h =>
    !(h == "") &&
      (match jsIndex row h with
       | none => false
       | some v => v.truthy && !(strTrim (cellToString v) == ""))

/-- Spec-side predicate: the cell under header `h` fails `parseNumeric`
(it is absent, null, boolean, or a string whose cleaned form `parseFloat`
cannot read), making the parsed value default to 0. -/
def cellNumericFails (row : RawRow) (h : String) : Bool :=
  match jsIndex row h with
  | none => true
  | some (CellValue.str s) => parseFloat (stripNumericChars s) == JSNum.nan
  | some (CellValue.num _) => false
  | some (CellValue.boolVal _) => true
  | some CellValue.nullVal => true

end GoalViz

namespace CalcMetrics

open GoalViz

/-- A `NormalizedRow` as consumed by the metric engine.  Numbers are
idealized as rationals here (`calculateEntityMetrics` itself introduces no
non-finite values; the only division it performs is `safeDivide`, modelled
by `safeDivideQ` through the bridge lemma `safeDivide_fin`). -/
structure NormalizedRow where
  entity : String
  spend : ℚ
  leads : ℚ
  quotes : ℚ
  sales : ℚ
  clicks : Option ℚ := none
  impressions : Option ℚ := none
  contacted : Option ℚ := none
  calls : Option ℚ := none
  policyItems : Option ℚ := none
  premium : Option ℚ := none
  quoteCpa : Option ℚ := none
  policyCpa : Option ℚ := none
deriving DecidableEq, Repr

/-- The accumulator of the `rows.reduce` call in `calculateEntityMetrics`. -/
structure Totals where
  spend : ℚ
  leads : ℚ
  quotes : ℚ
  sales : ℚ
  clicks : ℚ
  impressions : ℚ
  contacted : ℚ
  calls : ℚ
  policyItems : ℚ
  premium : ℚ
  quoteCpaSum : ℚ
  quoteCpaCount : ℚ
  policyCpaSum : ℚ
  policyCpaCount : ℚ
deriving DecidableEq, Repr

/-- The initial accumulator (all zeros). -/
def Totals.init : Totals :=
  { spend := 0, leads := 0, quotes := 0, sales := 0, clicks := 0,
    impressions := 0, contacted := 0, calls := 0, policyItems := 0,
    premium := 0, quoteCpaSum := 0, quoteCpaCount := 0, policyCpaSum := 0,
    policyCpaCount := 0 }

/-- One reduction step: add the row totals, `?? 0` for the optional
fields, and track sum and count of the supplied pre-calculated CPAs. -/
def Totals.step (acc : Totals) (row : NormalizedRow) : Totals :=
  { spend := qadd acc.spend row.spend
    leads := qadd acc.leads row.leads
    quotes := qadd acc.quotes row.quotes
    sales := qadd acc.sales row.sales
    clicks := qadd acc.clicks (row.clicks.getD 0)
    impressions := qadd acc.impressions (row.impressions.getD 0)
    contacted := qadd acc.contacted (row.contacted.getD 0)
    calls := qadd acc.calls (row.calls.getD 0)
    policyItems := qadd acc.policyItems (row.policyItems.getD 0)
    premium := qadd acc.premium (row.premium.getD 0)
    quoteCpaSum := qadd acc.quoteCpaSum (row.quoteCpa.getD 0)
    quoteCpaCount := qadd acc.quoteCpaCount (if row.quoteCpa.isSome then 1 else 0)
    policyCpaSum := qadd acc.policyCpaSum (row.policyCpa.getD 0)
    policyCpaCount := qadd acc.policyCpaCount (if row.policyCpa.isSome then 1 else 0) }

/-- The result record of `calculateEntityMetrics`. -/
structure EntityMetrics where
  entity : String
  spend : ℚ
  leads : ℚ
  quotes : ℚ
  sales : ℚ
  clicks : Option ℚ
  impressions : Option ℚ
  contacted : Option ℚ
  calls : Option ℚ
  policyItems : Option ℚ
  premium : Option ℚ
  cpl : ℚ
  cpq : ℚ
  cpa : ℚ
  cpi : Option ℚ
  cpc : Option ℚ
  quoteRate : ℚ
  quoteToClose : ℚ
  closeRate : ℚ
  clickToLead : Option ℚ
  clickToClose : Option ℚ
  contactRate : Option ℚ
  inboundCallRate : Option ℚ
  ctr : Option ℚ
  roas : Option ℚ
deriving DecidableEq, Repr

/-- `calculateEntityMetrics` from `calculateMetrics.ts`. -/
def calculateEntityMetrics (entity : String) (rows : List NormalizedRow) :
    EntityMetrics :=
  let totals := rows.foldl Totals.step Totals.init
  let cpl := safeDivideQ totals.spend totals.leads
  let cpq :=
    if 0 < totals.quoteCpaCount then
      safeDivideQ totals.quoteCpaSum totals.quoteCpaCount
    else safeDivideQ totals.spend totals.quotes
  let cpa :=
    if 0 < totals.policyCpaCount then
      safeDivideQ totals.policyCpaSum totals.policyCpaCount
    else safeDivideQ totals.spend totals.sales
  let cpi :=
    if 0 < totals.policyItems then some (safeDivideQ totals.spend totals.policyItems)
    else none
  let cpc :=
    if 0 < totals.clicks then some (safeDivideQ totals.spend totals.clicks)
    else none
  let quoteRate := calculatePercentageQ totals.quotes totals.leads
  let quoteToClose := calculatePercentageQ totals.sales totals.quotes
  let closeRate := calculatePercentageQ totals.sales totals.leads
  let clickToLead :=
    if 0 < totals.clicks then some (calculatePercentageQ totals.leads totals.clicks)
    else none
  let clickToClose :=
    if 0 < totals.clicks then some (calculatePercentageQ totals.sales totals.clicks)
    else none
  let contactRate :=
    if 0 < totals.contacted then some (calculatePercentageQ totals.contacted totals.leads)
    else none
  let inboundCallRate :=
    if 0 < totals.calls then some (calculatePercentageQ totals.calls totals.leads)
    else none
  let ctr :=
    if 0 < totals.impressions then some (calculatePercentageQ totals.clicks totals.impressions)
    else none
  let roas :=
    if 0 < totals.premium then some (safeDivideQ totals.premium totals.spend)
    else none
  { entity := entity
    spend := totals.spend
    leads := totals.leads
    quotes := totals.quotes
    sales := totals.sales
    clicks := if 0 < totals.clicks then some totals.clicks else none
    impressions := if 0 < totals.impressions then some totals.impressions else none
    contacted := if 0 < totals.contacted then some totals.contacted else none
    calls := if 0 < totals.calls then some totals.calls else none
    policyItems := if 0 < totals.policyItems then some totals.policyItems else none
    premium := if 0 < totals.premium then some totals.premium else none
    cpl := cpl
    cpq := cpq
    cpa := cpa
    cpi := cpi
    cpc := cpc
    quoteRate := quoteRate
    quoteToClose := quoteToClose
    closeRate := closeRate
    clickToLead := clickToLead
    clickToClose := clickToClose
    contactRate := contactRate
    inboundCallRate := inboundCallRate
    ctr := ctr
    roas := roas }

end CalcMetrics

namespace GoalViz

/-- A `TransformationConfig`: per raw header, the configured
transformation (`Record<string, FieldTransformation>`). -/
def TransformConfig : Type := List (String × FieldTransformation)

instance : DecidableEq TransformConfig := by
  unfold TransformConfig
  infer_instance

/-- `transforms?.[column] ?? { type: "text" }`. -/
def getTransform (transforms : Option TransformConfig) (column : String) :
    FieldTransformation :=
  match transforms with
  | none => { type := .text, format := none }
  | some ts =>
    match ts.find? (fun p => p.1 == column) with
    | some p => p.2
    | none => { type := .text, format := none }

/-- The entries of a `Partial<ColumnMapping>` as iterated by
`Object.entries(mapping)`: (field, column) pairs in insertion order.
A column may be the empty string; the validators skip such falsy
columns exactly as the source `if (!column) continue` does. -/
def MappingEntries : Type := List (Field × String)

/-- The skip test shared by the validators:
`value === null || value === undefined || String(value).trim() === ""`. -/
def cellSkipped (v : Option CellValue) : Bool :=
  match v with
  | none => true
  | some CellValue.nullVal => true
  | some c => strTrim (cellToString c) == ""

/-- One cell counts as a transformation error: it is not skipped, the
transformation returns null, and the configured type is not text. -/
def cellError (np : String → Option JSDate) (row : RawRow) (column : String)
    (transform : FieldTransformation) : Bool :=
  !cellSkipped (jsIndex row column) &&
    (applyTransformation np (jsIndex row column) transform).isNone &&
    !(transform.type == FieldType.text)

/-- The scan of `getSampleValues`: walk the rows, skip absent/blank/`n/a`
values and duplicates (by trimmed string form), and stop at `count`
samples.  The accumulator holds the samples in reverse. -/
def getSampleValuesGo (column : String) (count : Nat) :
    List RawRow → List CellValue → List String → List CellValue
  | [], samples, _ => samples.reverse
  | row :: rest, samples, seen =>
    if count ≤ samples.length then samples.reverse
    else
      match jsIndex row column with
      | none => getSampleValuesGo column count rest samples seen
      | some CellValue.nullVal => getSampleValuesGo column count rest samples seen
      | some v =>
        let strValue := strTrim (cellToString v)
        if strValue == "" || strLower strValue == "n/a" ||
            seen.contains strValue then
          getSampleValuesGo column count rest samples seen
        else getSampleValuesGo column count rest (v :: samples) (strValue :: seen)

/-- `getSampleValues` from the validation utilities. -/
def getSampleValues (data : List RawRow) (column : String) (count : Nat) :
    List CellValue :=
  getSampleValuesGo column count data [] []

/-- A `FieldValidationResult`. -/
structure FieldValidationResult where
  field : String
  valid : Bool
  sampleValues : List CellValue
  transformedSamples : List (Option TransformedValue)
  errorCount : Nat
  warningMessage : Option String
  detectedType : FieldType
deriving DecidableEq, Repr

/-- `validateField` from the validation utilities. -/
def validateField (np : String → Option JSDate) (data : List RawRow)
    (column : String) (transform : FieldTransformation) :
    FieldValidationResult :=
  let samples := getSampleValues data column 10
  let errorCount := data.countP (fun row => cellError np row column transform)
  let transformedSamples :=
    samples.map (fun s => applyTransformation np (some s) transform)
  let totalNonEmpty := data.countP (fun row => !cellSkipped (jsIndex row column))
  let errorRate : ℚ :=
    if 0 < totalNonEmpty then mkRat errorCount totalNonEmpty else 0
  let warningMessage :=
    if mkRat 1 2 < errorRate ∧ errorRate < 1 then
      some (toString (jsRound (qmul errorRate 100)) ++
        "% of values may not parse correctly with this format")
    else if errorRate = 1 ∧ 0 < totalNonEmpty then
      some "No values match this format - consider changing the transformation"
    else none
  let detection := detectFieldType np samples
  { field := column
    valid := errorCount == 0
    sampleValues := samples
    transformedSamples := transformedSamples
    errorCount := errorCount
    warningMessage := warningMessage
    detectedType := detection.type }

/-- A `ValidationSummary`. -/
structure ValidationSummary where
  totalRows : Nat
  validRows : Nat
  invalidRows : Nat
  fieldResults : List (Field × FieldValidationResult)
deriving DecidableEq, Repr

/-- One mapping entry of the `generateValidationSummary` loop: skip falsy
columns, record the field result, and when the field has any error, mark
every erroring row in the row-error flags. -/
def gvsStep (np : String → Option JSDate) (data : List RawRow)
    (transforms : Option TransformConfig)
    (acc : List (Field × FieldValidationResult) × List Bool)
    (entry : Field × String) :
    List (Field × FieldValidationResult) × List Bool :=
  if entry.2 == "" then acc
  else
    let transform := getTransform transforms entry.2
    let result := validateField np data entry.2 transform
    let rowErrors :=
      if 0 < result.errorCount then
        List.zipWith (fun e row => e || cellError np row entry.2 transform)
          acc.2 data
      else acc.2
    (acc.1 ++ [(entry.1, result)], rowErrors)

/-- `generateValidationSummary` from the validation utilities. -/
def generateValidationSummary (np : String → Option JSDate)
    (data : List RawRow) (mapping : MappingEntries)
    (transforms : Option TransformConfig) : ValidationSummary :=
  let res := mapping.foldl (gvsStep np data transforms)
    ([], List.replicate data.length false)
  let totalInvalidRows := res.2.countP (fun b => b)
  { totalRows := data.length
    validRows := data.length - totalInvalidRows
    invalidRows := totalInvalidRows
    fieldResults := res.1 }

/-- The inner field loop of `validateWithProgress` for one row: the row is
flagged as soon as some mapped column has a cell error (the `break` makes
the loop equivalent to an existence check). -/
def rowHasError (np : String → Option JSDate) (mapping : MappingEntries)
    (transforms : Option TransformConfig) (row : RawRow) : Bool :=
  mapping.any (fun entry =>
    !(entry.2 == "") &&
      cellError np row entry.2 (getTransform transforms entry.2))

/-- The chunked row scan of `validateWithProgress`.  The fuel argument
(instantiated with the row count) bounds the loop: with a positive chunk
size each iteration consumes at least one row, so the fuel never runs out;
with chunk size 0 the source loop would not terminate at all. -/
def chunkedFlags (np : String → Option JSDate) (mapping : MappingEntries)
    (transforms : Option TransformConfig) (chunkSize : Nat) :
    Nat → List RawRow → List Bool
  | 0, _ => []
  | _, [] => []
  | fuel + 1, rows =>
    (rows.take chunkSize).map (rowHasError np mapping transforms) ++
      chunkedFlags np mapping transforms chunkSize fuel (rows.drop chunkSize)

/-- `validateWithProgress` from the validation utilities, stripped of its
cooperative-yield scaffolding (the progress callback and the awaited
timeouts do not affect the returned summary). -/
def validateWithProgress (np : String → Option JSDate) (data : List RawRow)
    (mapping : MappingEntries) (transforms : Option TransformConfig)
    (chunkSize : Nat) : ValidationSummary :=
  let rowErrors := chunkedFlags np mapping transforms chunkSize data.length data
  let fieldResults := mapping.foldl
    (fun acc entry =>
      if entry.2 == "" then acc
      else
        acc ++ [(entry.1,
          validateField np data entry.2 (getTransform transforms entry.2))])
    []
  let invalidRows := rowErrors.countP (fun b => b)
  { totalRows := data.length
    validRows := data.length - invalidRows
    invalidRows := invalidRows
    fieldResults := fieldResults }

/-- The `MultiFileMode` union. -/
inductive MultiFileMode where
  | merge
  | compare
deriving DecidableEq, Repr

/-- An `UploadedFile`. -/
structure UploadedFile where
  id : String
  fileName : String
  headers : List String
  data : List RawRow
  mapping : ColumnMapping
  rowCount : Nat
  transformConfig : Option TransformConfig := none
  validationSummary : Option ValidationSummary := none
deriving DecidableEq

/-- The mutable state owned by the data context: the uploaded files and
the selected multi-file mode. -/
structure DataState where
  uploadedFiles : List UploadedFile
  multiFileMode : Option MultiFileMode
deriving DecidableEq

/-- `MAX_FILES` from `DataContext.tsx`. -/
def MAX_FILES : Nat := 3

/-- `addFile`: reject (state unchanged) when the cap is reached, else
append the file with a freshly generated id (the id generator is passed in
as `newId`). -/
def addFile (st : DataState) (file : UploadedFile) (newId : String) :
    DataState :=
  if MAX_FILES ≤ st.uploadedFiles.length then st
  else
    { st with
      uploadedFiles := st.uploadedFiles ++ [{ file with id := newId }] }

/-- `removeFile`: drop the file with the given id. -/
def removeFile (st : DataState) (fileId : String) : DataState :=
  { st with uploadedFiles := st.uploadedFiles.filter (fun f => !(f.id == fileId)) }

/-- `updateFileMapping`: replace one file mapping in place. -/
def updateFileMapping (st : DataState) (fileId : String)
    (mapping : ColumnMapping) : DataState :=
  { st with
    uploadedFiles := st.uploadedFiles.map (fun f =>
      if f.id == fileId then { f with mapping := mapping } else f) }

/-- `updateFileTransformConfig`: replace one file transformation config. -/
def updateFileTransformConfig (st : DataState) (fileId : String)
    (config : TransformConfig) : DataState :=
  { st with
    uploadedFiles := st.uploadedFiles.map (fun f =>
      if f.id == fileId then { f with transformConfig := some config } else f) }

/-- `updateFileValidation`: replace one file validation summary. -/
def updateFileValidation (st : DataState) (fileId : String)
    (summary : ValidationSummary) : DataState :=
  { st with
    uploadedFiles := st.uploadedFiles.map (fun f =>
      if f.id == fileId then { f with validationSummary := some summary } else f) }

/-- `setMultiFileMode`: select the multi-file mode. -/
def setMultiFileMode (st : DataState) (mode : Option MultiFileMode) :
    DataState :=
  { st with multiFileMode := mode }

end GoalViz

namespace Examples

open GoalViz

/-- A metric-engine row with nonzero spend and sales and both
pre-calculated CPA overrides supplied. -/
def mRow : CalcMetrics.NormalizedRow :=
  { entity := "A", spend := 100, leads := 10, quotes := 4, sales := 2,
    policyCpa := some 30, quoteCpa := some 12 }

/-- A raw row whose clicks cell is unparsable. -/
def rowClicks : RawRow := [("E", CellValue.str "x"), ("C", CellValue.str "abc")]

/-- A mapping with entity and clicks columns. -/
def mapClicks : ColumnMapping := { entity := some "E", clicks := some "C" }

/-- The normalized row `normalizeRow` produces from `rowClicks` under
`mapClicks`: the unparsable clicks cell yields `clicks = 0`, present. -/
def nrClicks : NormalizedRow :=
  { entity := "x", spend := JSNum.fin 0, leads := JSNum.fin 0,
    quotes := JSNum.fin 0, sales := JSNum.fin 0,
    clicks := some (JSNum.fin 0) }

/-- A raw row whose entity cell is the number 0 (falsy, though its string
form trims to the non-empty "0"). -/
def rowZero : RawRow := [("E", CellValue.num 0)]

/-- A mapping with only the entity column. -/
def mapEnt : ColumnMapping := { entity := some "E" }

/-- An uploaded file with the given id. -/
def exFile (i : String) : UploadedFile :=
  { id := i, fileName := "f.csv", headers := [], data := [], mapping := {},
    rowCount := 0 }

/-- A data-context state already holding three files. -/
def exState : DataState :=
  { uploadedFiles := [exFile "1", exFile "2", exFile "3"],
    multiFileMode := none }

/-- A small dataset for the validation witness. -/
def exData : List RawRow :=
  [[("A", CellValue.str "x")], [("A", CellValue.str "12")]]

/-- A mapping-entry list for the validation witness. -/
def exEntries : MappingEntries := [(Field.entity, "A")]

/-- A concrete native date parse that accepts nothing (any function of the
right type would do for the witnesses). -/
def np0 : String → Option JSDate := fun _ => none

end Examples

namespace GoalViz

theorem qadd_eq (a b : ℚ) : qadd a b = a + b := by
  have ha : ((a.den : ℚ)) ≠ 0 := by exact_mod_cast a.den_nz
  have hb : ((b.den : ℚ)) ≠ 0 := by exact_mod_cast b.den_nz
  unfold qadd
  rw [Rat.divInt_eq_div]
  push_cast
  conv_rhs => rw [← Rat.num_div_den a, ← Rat.num_div_den b]
  rw [div_add_div _ _ ha hb]
  ring_nf

theorem qmul_eq (a b : ℚ) : qmul a b = a * b := by
  unfold qmul
  rw [Rat.divInt_eq_div]
  push_cast
  conv_rhs => rw [← Rat.num_div_den a, ← Rat.num_div_den b]
  rw [div_mul_div_comm]

theorem qdiv_eq (a b : ℚ) (hb : b ≠ 0) : qdiv a b = a / b := by
  have ha : ((a.den : ℚ)) ≠ 0 := by exact_mod_cast a.den_nz
  have hbd : ((b.den : ℚ)) ≠ 0 := by exact_mod_cast b.den_nz
  have hbn : ((b.num : ℚ)) ≠ 0 := by exact_mod_cast Rat.num_ne_zero.mpr hb
  unfold qdiv
  rw [Rat.divInt_eq_div]
  push_cast
  conv_rhs => rw [← Rat.num_div_den a, ← Rat.num_div_den b]
  field_simp

theorem safeDivideQ_eq (n d : ℚ) :
    safeDivideQ n d = if d = 0 then 0 else n / d := by
  unfold safeDivideQ
  by_cases hd : d = 0
  · simp [hd]
  · simp [hd, qdiv_eq n d hd]

theorem safeDivide_fin (a b : ℚ) :
    safeDivide (JSNum.fin a) (JSNum.fin b) = JSNum.fin (safeDivideQ a b) := by
  by_cases hb : b = 0 <;>
    simp [safeDivide, safeDivideQ, jsDiv, hb, JSNum.isFinite]

/-- **C6.** For every pair of JavaScript numbers, including a zero,
negative, or non-finite denominator, `safeDivide` returns a finite number
(never NaN or an infinity); in particular `safeDivide(100, 0) = 0` and
`safeDivide(100, 4) = 25`. -/
theorem claimC6 :
    (∀ n d : JSNum, (safeDivide n d).isFinite = true) ∧
      safeDivide (JSNum.fin 100) (JSNum.fin 0) = JSNum.fin 0 ∧
      safeDivide (JSNum.fin 100) (JSNum.fin 4) = JSNum.fin 25 := by
  refine ⟨fun n d => ?_, by decide, by decide⟩
  unfold safeDivide
  cases d with
  | fin b =>
    by_cases hb : b = 0
    · simp [hb, JSNum.isFinite]
    · cases n with
      | fin a => simp [jsDiv, hb, JSNum.isFinite]
      | posInf =>
        by_cases hbneg : b < 0 <;> simp [jsDiv, hb, hbneg, JSNum.isFinite]
      | negInf =>
        by_cases hbneg : b < 0 <;> simp [jsDiv, hb, hbneg, JSNum.isFinite]
      | nan => simp [jsDiv, hb, JSNum.isFinite]
  | posInf => simp [JSNum.isFinite]
  | negInf => simp [JSNum.isFinite]
  | nan => simp [JSNum.isFinite]

/-- **C1.** For the header list
`["Leads", "Lead Conversion Rate", "Quote", "CPA"]`, `autoDetectColumns`
maps `leads` to `"Leads"` (never to `"Lead Conversion Rate"`), `quotes`
to `"Quote"`, `policyCpa` to `"CPA"`, and maps neither `sales` nor
`spend` to `"CPA"` (both end up unmapped here). -/
theorem claimC1 :
    mappingLookup
        (autoDetectColumns ["Leads", "Lead Conversion Rate", "Quote", "CPA"])
        Field.leads = some "Leads" ∧
      mappingLookup
        (autoDetectColumns ["Leads", "Lead Conversion Rate", "Quote", "CPA"])
        Field.leads ≠ some "Lead Conversion Rate" ∧
      mappingLookup
        (autoDetectColumns ["Leads", "Lead Conversion Rate", "Quote", "CPA"])
        Field.quotes = some "Quote" ∧
      mappingLookup
        (autoDetectColumns ["Leads", "Lead Conversion Rate", "Quote", "CPA"])
        Field.policyCpa = some "CPA" ∧
      mappingLookup
        (autoDetectColumns ["Leads", "Lead Conversion Rate", "Quote", "CPA"])
        Field.sales ≠ some "CPA" ∧
      mappingLookup
        (autoDetectColumns ["Leads", "Lead Conversion Rate", "Quote", "CPA"])
        Field.spend ≠ some "CPA" := by
  decide

theorem matchPass_not_used {headers used : List String} {field : Field}
    {exact : Bool} {pats : List String} {h : String}
    (hm : matchPass headers used field exact pats = some h) :
    used.contains h = false := by
  induction pats with
  | nil => simp [matchPass] at hm
  | cons p rest ih =>
    unfold matchPass at hm
    split at hm
    · rename_i x heq
      cases hm
      have hp := List.find?_some heq
      simp only [Bool.and_eq_true, Bool.not_eq_true'] at hp
      exact hp.1.2
    · exact ih hm

theorem detectField_not_used {headers used : List String} {field : Field}
    {h : String} (hm : detectField headers used field = some h) :
    used.contains h = false := by
  unfold detectField at hm
  split at hm
  · rename_i x heq
    cases hm
    exact matchPass_not_used heq
  · exact matchPass_not_used hm

theorem autoDetectGo_not_used (headers : List String) :
    ∀ (fs : List Field) (used : List String) (p : Field × String),
      p ∈ autoDetectGo headers fs used → used.contains p.2 = false := by
  intro fs
  induction fs with
  | nil => intro used p hp; simp [autoDetectGo] at hp
  | cons f rest ih =>
    intro used p hp
    unfold autoDetectGo at hp
    split at hp
    · rename_i h heq
      rcases List.mem_cons.mp hp with rfl | hmem
      · exact detectField_not_used heq
      · have hc := ih (h :: used) p hmem
        simp only [List.contains_cons, Bool.or_eq_false_iff] at hc
        exact hc.2
    · exact ih used p hp

theorem autoDetectGo_pairwise (headers : List String) :
    ∀ (fs : List Field) (used : List String),
      (autoDetectGo headers fs used).Pairwise (fun p q => p.2 ≠ q.2) := by
  intro fs
  induction fs with
  | nil => intro used; simp [autoDetectGo]
  | cons f rest ih =>
    intro used
    unfold autoDetectGo
    split
    · rename_i h heq
      refine List.Pairwise.cons ?_ (ih (h :: used))
      intro q hq hqe
      have hc := autoDetectGo_not_used headers rest (h :: used) q hq
      simp only [List.contains_cons, Bool.or_eq_false_iff] at hc
      have : (q.2 == h) = false := hc.1
      simp only [beq_eq_false_iff_ne] at this
      exact this hqe.symm
    · exact ih used

/-- **C3.** For every header list (assumed pairwise distinct, as in the
claim, though the proof does not need it), the partial mapping returned by
`autoDetectColumns` is injective on mapped fields: two distinct canonical
fields never resolve to the same header string. -/
theorem claimC3 (headers : List String) (_hnd : headers.Nodup)
    (f g : Field) (hfg : f ≠ g) (h : String)
    (hf : mappingLookup (autoDetectColumns headers) f = some h) :
    mappingLookup (autoDetectColumns headers) g ≠ some h := by
  intro hg
  unfold mappingLookup at hf hg
  rcases Option.map_eq_some'.mp hf with ⟨p, hpfind, hp2⟩
  rcases Option.map_eq_some'.mp hg with ⟨q, hqfind, hq2⟩
  have hpf : p.1 = f := by
    have := List.find?_some hpfind
    simpa [beq_iff_eq] using this
  have hqg : q.1 = g := by
    have := List.find?_some hqfind
    simpa [beq_iff_eq] using this
  have hpm := List.mem_of_find?_eq_some hpfind
  have hqm := List.mem_of_find?_eq_some hqfind
  have hpq : p ≠ q := by
    intro hEq
    exact hfg (by rw [← hpf, hEq, hqg])
  have hsym : Symmetric (fun p q : Field × String => p.2 ≠ q.2) :=
    fun a b hab => hab.symm
  have := (autoDetectGo_pairwise headers fieldOrder []).forall hsym hpm hqm hpq
  exact this (hp2.trans hq2.symm)

/-- Witness for C3: on the concrete header list `["Leads", "Quote"]` the
field `leads` resolves to `"Leads"`, so `quotes` cannot also resolve to
`"Leads"`. -/
theorem claimC3_witness :
    mappingLookup (autoDetectColumns ["Leads", "Quote"]) Field.quotes ≠
      some "Leads" :=
  claimC3 ["Leads", "Quote"] (by decide) Field.leads Field.quotes (by decide)
    "Leads" (by decide)

/-- **C7.** `parseDateWithFormat("02/30/2024", "MM/DD/YYYY")` is null (the
round-trip through the date constructor turns Feb 30 into Mar 1, which no
longer matches the parsed components), and
`parseDateWithFormat("02/28/2024", "MM/DD/YYYY")` is February 28, 2024
(`getMonth` is 0-based, so the month component is 1).  The native-parse
parameter is irrelevant because the format is explicit. -/
theorem claimC7 (np : String → Option JSDate) :
    parseDateWithFormat np "02/30/2024" DateFormat.MMDDYYYY = none ∧
      parseDateWithFormat np "02/28/2024" DateFormat.MMDDYYYY =
        some { year := 2024, month := 1, day := 28 } := by
  exact ⟨rfl, rfl⟩

end GoalViz

namespace CalcMetrics

open GoalViz

theorem foldl_policyCpa (rows : List NormalizedRow) :
    ∀ acc : Totals,
      (rows.foldl Totals.step acc).policyCpaSum =
          acc.policyCpaSum + (rows.filterMap NormalizedRow.policyCpa).sum ∧
        (rows.foldl Totals.step acc).policyCpaCount =
          acc.policyCpaCount +
            ((rows.filterMap NormalizedRow.policyCpa).length : ℚ) := by
  induction rows with
  | nil => intro acc; simp
  | cons r rs ih =>
    intro acc
    simp only [List.foldl_cons]
    obtain ⟨h1, h2⟩ := ih (Totals.step acc r)
    refine ⟨?_, ?_⟩
    · rw [h1]
      show (qadd acc.policyCpaSum (r.policyCpa.getD 0)) + _ = _
      rw [qadd_eq]
      cases hr : r.policyCpa with
      | none => simp [List.filterMap_cons, hr]
      | some q =>
        simp only [List.filterMap_cons, hr, Option.getD_some, List.sum_cons]
        ring
    · rw [h2]
      show (qadd acc.policyCpaCount (if r.policyCpa.isSome then 1 else 0)) + _ = _
      rw [qadd_eq]
      cases hr : r.policyCpa with
      | none => simp [List.filterMap_cons, hr]
      | some q =>
        simp only [List.filterMap_cons, hr, Option.isSome_some, if_true,
          List.length_cons]
        push_cast
        ring

theorem foldl_quoteCpa (rows : List NormalizedRow) :
    ∀ acc : Totals,
      (rows.foldl Totals.step acc).quoteCpaSum =
          acc.quoteCpaSum + (rows.filterMap NormalizedRow.quoteCpa).sum ∧
        (rows.foldl Totals.step acc).quoteCpaCount =
          acc.quoteCpaCount +
            ((rows.filterMap NormalizedRow.quoteCpa).length : ℚ) := by
  induction rows with
  | nil => intro acc; simp
  | cons r rs ih =>
    intro acc
    simp only [List.foldl_cons]
    obtain ⟨h1, h2⟩ := ih (Totals.step acc r)
    refine ⟨?_, ?_⟩
    · rw [h1]
      show (qadd acc.quoteCpaSum (r.quoteCpa.getD 0)) + _ = _
      rw [qadd_eq]
      cases hr : r.quoteCpa with
      | none => simp [List.filterMap_cons, hr]
      | some q =>
        simp only [List.filterMap_cons, hr, Option.getD_some, List.sum_cons]
        ring
    · rw [h2]
      show (qadd acc.quoteCpaCount (if r.quoteCpa.isSome then 1 else 0)) + _ = _
      rw [qadd_eq]
      cases hr : r.quoteCpa with
      | none => simp [List.filterMap_cons, hr]
      | some q =>
        simp only [List.filterMap_cons, hr, Option.isSome_some, if_true,
          List.length_cons]
        push_cast
        ring

/-- **C2.** For every non-empty row list handed to
`calculateEntityMetrics`: if any row supplies a `policyCpa` value, the
resulting `cpa` is the sum of the supplied values divided by the number of
rows supplying them (regardless of the spend and sales totals, which may
both be nonzero); analogously, if any row supplies a `quoteCpa` value,
`cpq` is the average of the supplied values rather than spend/quotes. -/
theorem claimC2 (entity : String) (rows : List NormalizedRow)
    (_hne : rows ≠ []) :
    ((rows.filterMap NormalizedRow.policyCpa) ≠ [] →
      (calculateEntityMetrics entity rows).cpa =
        (rows.filterMap NormalizedRow.policyCpa).sum /
          ((rows.filterMap NormalizedRow.policyCpa).length : ℚ)) ∧
      ((rows.filterMap NormalizedRow.quoteCpa) ≠ [] →
        (calculateEntityMetrics entity rows).cpq =
          (rows.filterMap NormalizedRow.quoteCpa).sum /
            ((rows.filterMap NormalizedRow.quoteCpa).length : ℚ)) := by
  constructor
  · intro hp
    have hsum := (foldl_policyCpa rows Totals.init).1
    have hcount := (foldl_policyCpa rows Totals.init).2
    have hzero : Totals.init.policyCpaSum = 0 := rfl
    have hzero2 : Totals.init.policyCpaCount = 0 := rfl
    rw [hzero, zero_add] at hsum
    rw [hzero2, zero_add] at hcount
    have hlen : 0 < (rows.filterMap NormalizedRow.policyCpa).length :=
      List.length_pos.mpr hp
    have hlenq : (0 : ℚ) < ((rows.filterMap NormalizedRow.policyCpa).length : ℚ) := by
      exact_mod_cast hlen
    show (if 0 < (rows.foldl Totals.step Totals.init).policyCpaCount then _ else _) = _
    rw [hcount, if_pos hlenq, hsum, safeDivideQ_eq, if_neg (ne_of_gt hlenq)]
  · intro hp
    have hsum := (foldl_quoteCpa rows Totals.init).1
    have hcount := (foldl_quoteCpa rows Totals.init).2
    have hzero : Totals.init.quoteCpaSum = 0 := rfl
    have hzero2 : Totals.init.quoteCpaCount = 0 := rfl
    rw [hzero, zero_add] at hsum
    rw [hzero2, zero_add] at hcount
    have hlen : 0 < (rows.filterMap NormalizedRow.quoteCpa).length :=
      List.length_pos.mpr hp
    have hlenq : (0 : ℚ) < ((rows.filterMap NormalizedRow.quoteCpa).length : ℚ) := by
      exact_mod_cast hlen
    show (if 0 < (rows.foldl Totals.step Totals.init).quoteCpaCount then _ else _) = _
    rw [hcount, if_pos hlenq, hsum, safeDivideQ_eq, if_neg (ne_of_gt hlenq)]

/-- Witness for C2: one row with spend 100, sales 2 (so spend/sales would
be 50) but a supplied `policyCpa` of 30; the computed `cpa` is the average
of the supplied values. -/
theorem claimC2_witness :
    ([Examples.mRow] : List NormalizedRow) ≠ [] ∧
      ([Examples.mRow].filterMap NormalizedRow.policyCpa) ≠ [] ∧
      (calculateEntityMetrics "A" [Examples.mRow]).cpa =
        ([Examples.mRow].filterMap NormalizedRow.policyCpa).sum /
          (([Examples.mRow].filterMap NormalizedRow.policyCpa).length : ℚ) :=
  ⟨by decide, by decide,
    (claimC2 "A" [Examples.mRow] (by decide)).1 (by decide)⟩

end CalcMetrics

namespace GoalViz

theorem parseNumeric_of_fails (row : RawRow) (h : String)
    (hf : cellNumericFails row h = true) :
    parseNumeric (jsIndex row h) = JSNum.fin 0 := by
  unfold cellNumericFails at hf
  cases hv : jsIndex row h with
  | none => simp [parseNumeric]
  | some v =>
    rw [hv] at hf
    cases v with
    | str s =>
      simp only [beq_iff_eq] at hf
      simp [parseNumeric, hf]
    | num q => simp at hf
    | boolVal b => simp [parseNumeric]
    | nullVal => simp [parseNumeric]

theorem optField_absent (row : RawRow) (mh : Option String)
    (hm : headerTruthy mh = false) : optField row mh = none := by
  cases mh with
  | none => rfl
  | some h =>
    simp only [headerTruthy, Bool.not_eq_false', beq_iff_eq] at hm
    simp [optField, hm]

theorem optField_mapped (row : RawRow) (h : String) (hne : h ≠ "") :
    optField row (some h) = some (parseNumeric (jsIndex row h)) := by
  simp [optField, hne]

theorem reqField_absent (row : RawRow) (mh : Option String)
    (hm : headerTruthy mh = false) : reqField row mh = JSNum.fin 0 := by
  cases mh with
  | none => rfl
  | some h =>
    simp only [headerTruthy, Bool.not_eq_false', beq_iff_eq] at hm
    simp [reqField, hm]

theorem reqField_mapped (row : RawRow) (h : String) (hne : h ≠ "") :
    reqField row (some h) = parseNumeric (jsIndex row h) := by
  simp [reqField, hne]

theorem normalizeRow_some_fields (row : RawRow) (mapping : ColumnMapping)
    (nr : NormalizedRow) (h : normalizeRow row mapping = some nr) :
    nr.spend = reqField row mapping.spend ∧
      nr.leads = reqField row mapping.leads ∧
      nr.quotes = reqField row mapping.quotes ∧
      nr.sales = reqField row mapping.sales ∧
      nr.clicks = optField row mapping.clicks ∧
      nr.impressions = optField row mapping.impressions ∧
      nr.contacted = optField row mapping.contacted ∧
      nr.calls = optField row mapping.calls ∧
      nr.policyItems = optField row mapping.policyItems ∧
      nr.premium = optField row mapping.premium ∧
      nr.quoteCpa = optField row mapping.quoteCpa ∧
      nr.policyCpa = optField row mapping.policyCpa := by
  unfold normalizeRow at h
  split at h
  · exact absurd h (by simp)
  · split at h
    · exact absurd h (by simp)
    · split at h
      · exact absurd h (by simp)
      · split at h
        · exact absurd h (by simp)
        · dsimp only at h
          split at h
          · exact absurd h (by simp)
          · injection h with h
            subst h
            exact ⟨rfl, rfl, rfl, rfl, rfl, rfl, rfl, rfl, rfl, rfl, rfl, rfl⟩

/-- Counterexample to **C4** as stated: with clicks mapped to column "C"
and the cell `"abc"` unparsable, the produced row still carries a clicks
key with value 0 instead of omitting it. -/
theorem claimC4_counterexample :
    headerTruthy Examples.mapClicks.clicks = true ∧
      cellNumericFails Examples.rowClicks "C" = true ∧
      (normalizeRow Examples.rowClicks Examples.mapClicks).map
          NormalizedRow.clicks = some (some (JSNum.fin 0)) := by
  exact ⟨by decide, by decide, by decide⟩

/-- **C4 (amended).** In every row produced by `normalizeRow`, an optional
numeric field key is present exactly when the field is mapped to a
non-empty header; when it is mapped but the cell is absent or unparsable
the value is 0 (the key is never omitted for a parse failure).  The same
holds for all six optional numeric fields. -/
theorem claimC4_amended (row : RawRow) (mapping : ColumnMapping)
    (nr : NormalizedRow) (h : normalizeRow row mapping = some nr) :
    (nr.clicks = none ↔ headerTruthy mapping.clicks = false) ∧
      (∀ ch, mapping.clicks = some ch → ch ≠ "" →
        cellNumericFails row ch = true → nr.clicks = some (JSNum.fin 0)) ∧
      (nr.impressions = none ↔ headerTruthy mapping.impressions = false) ∧
      (∀ ch, mapping.impressions = some ch → ch ≠ "" →
        cellNumericFails row ch = true → nr.impressions = some (JSNum.fin 0)) ∧
      (nr.contacted = none ↔ headerTruthy mapping.contacted = false) ∧
      (∀ ch, mapping.contacted = some ch → ch ≠ "" →
        cellNumericFails row ch = true → nr.contacted = some (JSNum.fin 0)) ∧
      (nr.calls = none ↔ headerTruthy mapping.calls = false) ∧
      (∀ ch, mapping.calls = some ch → ch ≠ "" →
        cellNumericFails row ch = true → nr.calls = some (JSNum.fin 0)) ∧
      (nr.policyItems = none ↔ headerTruthy mapping.policyItems = false) ∧
      (∀ ch, mapping.policyItems = some ch → ch ≠ "" →
        cellNumericFails row ch = true → nr.policyItems = some (JSNum.fin 0)) ∧
      (nr.premium = none ↔ headerTruthy mapping.premium = false) ∧
      (∀ ch, mapping.premium = some ch → ch ≠ "" →
        cellNumericFails row ch = true → nr.premium = some (JSNum.fin 0)) := by
  obtain ⟨-, -, -, -, hc, hi, hco, hca, hpi, hpr, -, -⟩ :=
    normalizeRow_some_fields row mapping nr h
  have main : ∀ (mh : Option String) (fv : Option JSNum), fv = optField row mh →
      ((fv = none ↔ headerTruthy mh = false) ∧
        (∀ ch, mh = some ch → ch ≠ "" →
          cellNumericFails row ch = true → fv = some (JSNum.fin 0))) := by
    intro mh fv hfv
    subst hfv
    constructor
    · constructor
      · intro hnone
        by_contra htr
        rw [Bool.not_eq_false] at htr
        cases mh with
        | none => simp [headerTruthy] at htr
        | some ch =>
          have hne : ch ≠ "" := by
            intro hEq
            rw [hEq] at htr
            simp [headerTruthy] at htr
          rw [optField_mapped row ch hne] at hnone
          exact absurd hnone (by simp)
      · exact optField_absent row mh
    · intro ch hch hne hf
      subst hch
      rw [optField_mapped row ch hne, parseNumeric_of_fails row ch hf]
  exact ⟨(main _ _ hc).1, fun ch hch => (main _ _ hc).2 ch hch,
    (main _ _ hi).1, fun ch hch => (main _ _ hi).2 ch hch,
    (main _ _ hco).1, fun ch hch => (main _ _ hco).2 ch hch,
    (main _ _ hca).1, fun ch hch => (main _ _ hca).2 ch hch,
    (main _ _ hpi).1, fun ch hch => (main _ _ hpi).2 ch hch,
    (main _ _ hpr).1, fun ch hch => (main _ _ hpr).2 ch hch⟩

/-- Witness for the amended C4: on the concrete row with clicks column "C"
holding `"abc"`, the clicks key is present with value 0. -/
theorem claimC4_witness :
    Examples.nrClicks.clicks = some (JSNum.fin 0) :=
  (claimC4_amended Examples.rowClicks Examples.mapClicks Examples.nrClicks
    (by decide)).2.1 "C" rfl (by decide) (by decide)

/-- Counterexample to **C5** as stated: an entity cell holding the number
0 is mapped and present, and its string form trims to the non-empty "0",
yet `normalizeRow` drops the row (the JavaScript truthiness test rejects
the falsy value 0 before the trim test runs). -/
theorem claimC5_counterexample :
    Examples.mapEnt.entity = some "E" ∧
      jsIndex Examples.rowZero "E" = some (CellValue.num 0) ∧
      strTrim (cellToString (CellValue.num 0)) ≠ "" ∧
      normalizeRow Examples.rowZero Examples.mapEnt = none := by
  exact ⟨rfl, by decide, by decide, by decide⟩

/-- **C5 (amended).** `normalizeRow` returns null exactly when entity
resolution fails: the entity field is unmapped or mapped to the empty
header string, or the cell under that header is absent or
JavaScript-falsy (null, false, the number 0, the empty string), or its
string form trims to the empty string.  In every other case it returns a
row whose required numeric fields (`spend`, `leads`, `quotes`, `sales`,
numbers by type) default to 0 when the field is unmapped or its cell
fails the numeric parse; the row is never dropped for that reason. -/
theorem claimC5_amended (row : RawRow) (mapping : ColumnMapping) :
    (normalizeRow row mapping = none ↔ entityResolves row mapping = false) ∧
      (∀ nr, normalizeRow row mapping = some nr →
        ((headerTruthy mapping.spend = false → nr.spend = JSNum.fin 0) ∧
            (∀ ch, mapping.spend = some ch → ch ≠ "" →
              cellNumericFails row ch = true → nr.spend = JSNum.fin 0)) ∧
          ((headerTruthy mapping.leads = false → nr.leads = JSNum.fin 0) ∧
            (∀ ch, mapping.leads = some ch → ch ≠ "" →
              cellNumericFails row ch = true → nr.leads = JSNum.fin 0)) ∧
          ((headerTruthy mapping.quotes = false → nr.quotes = JSNum.fin 0) ∧
            (∀ ch, mapping.quotes = some ch → ch ≠ "" →
              cellNumericFails row ch = true → nr.quotes = JSNum.fin 0)) ∧
          ((headerTruthy mapping.sales = false → nr.sales = JSNum.fin 0) ∧
            (∀ ch, mapping.sales = some ch → ch ≠ "" →
              cellNumericFails row ch = true → nr.sales = JSNum.fin 0))) := by
  constructor
  · cases hm : mapping.entity with
    | none => simp [normalizeRow, entityResolves, hm]
    | some eh =>
      by_cases he : eh = ""
      · simp [normalizeRow, entityResolves, hm, he]
      · cases hv : jsIndex row eh with
        | none => simp [normalizeRow, entityResolves, hm, he, hv]
        | some v =>
          by_cases ht : v.truthy
          · by_cases hs : strTrim (cellToString v) = ""
            · simp [normalizeRow, entityResolves, hm, he, hv, ht, hs]
            · simp [normalizeRow, entityResolves, hm, he, hv, ht, hs]
          · simp only [Bool.not_eq_true] at ht
            simp [normalizeRow, entityResolves, hm, he, hv, ht]
  · intro nr hnr
    obtain ⟨hsp, hld, hqt, hsl, -, -, -, -, -, -, -, -⟩ :=
      normalizeRow_some_fields row mapping nr hnr
    have main : ∀ (mh : Option String) (fv : JSNum), fv = reqField row mh →
        ((headerTruthy mh = false → fv = JSNum.fin 0) ∧
          (∀ ch, mh = some ch → ch ≠ "" →
            cellNumericFails row ch = true → fv = JSNum.fin 0)) := by
      intro mh fv hfv
      subst hfv
      refine ⟨reqField_absent row mh, ?_⟩
      intro ch hch hne hf
      subst hch
      rw [reqField_mapped row ch hne]
      exact parseNumeric_of_fails row ch hf
    exact ⟨main _ _ hsp, main _ _ hld, main _ _ hqt, main _ _ hsl⟩

/-- Witness for the amended C5: the falsy-entity row is dropped, as the
amended null condition requires. -/
theorem claimC5_witness :
    normalizeRow Examples.rowZero Examples.mapEnt = none :=
  (claimC5_amended Examples.rowZero Examples.mapEnt).1.mpr (by decide)

/-- **C8.** The uploaded-file collection never exceeds 3 files: with 3
files present, `addFile` rejects the new file and leaves the collection
unchanged (the same list, so no eviction or replacement), and none of the
state operations can push the count above 3. -/
theorem claimC8 (st : DataState) (file : UploadedFile)
    (newId fileId : String) (mapping : ColumnMapping)
    (config : TransformConfig) (summary : ValidationSummary)
    (mode : Option MultiFileMode)
    (hcap : st.uploadedFiles.length ≤ 3) :
    (st.uploadedFiles.length = 3 →
        (addFile st file newId).uploadedFiles = st.uploadedFiles) ∧
      (addFile st file newId).uploadedFiles.length ≤ 3 ∧
      (removeFile st fileId).uploadedFiles.length ≤ 3 ∧
      (updateFileMapping st fileId mapping).uploadedFiles.length ≤ 3 ∧
      (updateFileTransformConfig st fileId config).uploadedFiles.length ≤ 3 ∧
      (updateFileValidation st fileId summary).uploadedFiles.length ≤ 3 ∧
      (setMultiFileMode st mode).uploadedFiles.length ≤ 3 := by
  refine ⟨?_, ?_, ?_, ?_, ?_, ?_, ?_⟩
  · intro h3
    unfold addFile
    rw [if_pos (by rw [h3]; exact le_refl 3)]
  · unfold addFile
    by_cases hfull : MAX_FILES ≤ st.uploadedFiles.length
    · rw [if_pos hfull]; exact hcap
    · rw [if_neg hfull]
      simp only [List.length_append, List.length_singleton]
      unfold MAX_FILES at hfull
      omega
  · exact le_trans (List.length_filter_le _ _) hcap
  · unfold updateFileMapping
    simpa using hcap
  · unfold updateFileTransformConfig
    simpa using hcap
  · unfold updateFileValidation
    simpa using hcap
  · exact hcap

/-- Witness for C8: a state already holding 3 files rejects a 4th
(collection unchanged) and all operations keep the count at 3 or less. -/
theorem claimC8_witness :
    (addFile Examples.exState (Examples.exFile "4") "id4").uploadedFiles =
        Examples.exState.uploadedFiles ∧
      (addFile Examples.exState (Examples.exFile "4") "id4").uploadedFiles.length ≤ 3 ∧
      (removeFile Examples.exState "1").uploadedFiles.length ≤ 3 :=
  ⟨(claimC8 Examples.exState (Examples.exFile "4") "id4" "1" {} []
      ⟨0, 0, 0, []⟩ none (by decide)).1 (by decide),
    (claimC8 Examples.exState (Examples.exFile "4") "id4" "1" {} []
      ⟨0, 0, 0, []⟩ none (by decide)).2.1,
    (claimC8 Examples.exState (Examples.exFile "4") "id4" "1" {} []
      ⟨0, 0, 0, []⟩ none (by decide)).2.2.1⟩

theorem thresholdIff (dm len : Nat) (hl : 0 < len) :
    (mkRat 7 10 ≤ mkRat (dm : Int) len) ↔ 7 * len ≤ 10 * dm := by
  rw [Rat.mkRat_eq_div, Rat.mkRat_eq_div]
  rw [div_le_div_iff₀ (by norm_num)
    (by exact_mod_cast hl : (0 : ℚ) < (len : ℚ))]
  have hcast : ((7 * len : Nat) : ℚ) ≤ ((10 * dm : Nat) : ℚ) ↔
      7 * len ≤ 10 * dm := Nat.cast_le
  rw [← hcast]
  push_cast
  constructor <;> intro h <;> linarith

/-- Counterexample to **C9** as stated: a single sample that is neither a
date nor a number leaves both parse rates at 0%, below every threshold,
yet `detectFieldType` returns text with confidence 1 (the claim says
confidence 0 when no type reaches the threshold). -/
theorem claimC9_counterexample :
    typeSamples [CellValue.str "!!!"] ≠ [] ∧
      (∀ s ∈ typeSamples [CellValue.str "!!!"],
        (parseAutoDate Examples.np0 s).isNone ∧ (parseAutoNumber s).isNone) ∧
      detectFieldType Examples.np0 [CellValue.str "!!!"] =
        { type := FieldType.text, confidence := 1, dateFormat := none,
          numberFormat := none } := by
  exact ⟨by decide, by decide, by decide⟩

/-- **C9 (amended).** `detectFieldType` considers at most 20 usable
samples (non-empty after trimming, with `n/a` and `-` treated as absent)
and classifies the field as date when at least 70% of them parse as dates
under auto-detection, else as number when at least 70% parse as numbers,
else as text; with no usable samples the result is text with confidence
0, and when no type reaches the threshold the result is text with
confidence 1 (not 0). -/
theorem claimC9_amended (np : String → Option JSDate)
    (samples : List CellValue) :
    (typeSamples samples).length ≤ 20 ∧
      (typeSamples samples = [] →
        detectFieldType np samples =
          { type := FieldType.text, confidence := 0, dateFormat := none,
            numberFormat := none }) ∧
      (typeSamples samples ≠ [] →
        7 * (typeSamples samples).length ≤
            10 * (typeSamples samples).countP
              (fun s => (parseAutoDate np s).isSome) →
        (detectFieldType np samples).type = FieldType.date ∧
          (detectFieldType np samples).confidence =
            mkRat
              ((typeSamples samples).countP
                (fun s => (parseAutoDate np s).isSome))
              (typeSamples samples).length) ∧
      (typeSamples samples ≠ [] →
        10 * (typeSamples samples).countP
              (fun s => (parseAutoDate np s).isSome) <
            7 * (typeSamples samples).length →
        7 * (typeSamples samples).length ≤
            10 * (typeSamples samples).countP
              (fun s => (parseAutoNumber s).isSome) →
        (detectFieldType np samples).type = FieldType.number ∧
          (detectFieldType np samples).confidence =
            mkRat
              ((typeSamples samples).countP
                (fun s => (parseAutoNumber s).isSome))
              (typeSamples samples).length) ∧
      (typeSamples samples ≠ [] →
        10 * (typeSamples samples).countP
              (fun s => (parseAutoDate np s).isSome) <
            7 * (typeSamples samples).length →
        10 * (typeSamples samples).countP
              (fun s => (parseAutoNumber s).isSome) <
            7 * (typeSamples samples).length →
        detectFieldType np samples =
          { type := FieldType.text, confidence := 1, dateFormat := none,
            numberFormat := none }) := by
  have hlen : (typeSamples samples).length ≤ 20 := by
    unfold typeSamples
    simp [List.length_take]
  refine ⟨hlen, ?_, ?_, ?_, ?_⟩
  · intro hempty
    dsimp only [detectFieldType]
    rw [if_pos (by simp [hempty])]
  · intro hne hth
    have hpos : 0 < (typeSamples samples).length := List.length_pos.mpr hne
    dsimp only [detectFieldType]
    rw [if_neg (by simp [List.isEmpty_iff, hne]),
      if_pos ((thresholdIff _ _ hpos).mpr hth)]
    exact ⟨rfl, rfl⟩
  · intro hne hdlt hth
    have hpos : 0 < (typeSamples samples).length := List.length_pos.mpr hne
    dsimp only [detectFieldType]
    rw [if_neg (by simp [List.isEmpty_iff, hne]),
      if_neg (by rw [thresholdIff _ _ hpos]; omega),
      if_pos ((thresholdIff _ _ hpos).mpr hth)]
    exact ⟨rfl, rfl⟩
  · intro hne hdlt hnlt
    have hpos : 0 < (typeSamples samples).length := List.length_pos.mpr hne
    dsimp only [detectFieldType]
    rw [if_neg (by simp [List.isEmpty_iff, hne]),
      if_neg (by rw [thresholdIff _ _ hpos]; omega),
      if_neg (by rw [thresholdIff _ _ hpos]; omega)]

/-- Witness for the amended C9: no samples yields text with confidence 0,
and an all-unparsable sample set yields text with confidence 1. -/
theorem claimC9_witness :
    detectFieldType Examples.np0 [] =
        { type := FieldType.text, confidence := 0, dateFormat := none,
          numberFormat := none } ∧
      detectFieldType Examples.np0 [CellValue.str "!!!"] =
        { type := FieldType.text, confidence := 1, dateFormat := none,
          numberFormat := none } :=
  ⟨(claimC9_amended Examples.np0 []).2.1 (by decide),
    (claimC9_amended Examples.np0 [CellValue.str "!!!"]).2.2.2.2 (by decide)
      (by decide) (by decide)⟩

theorem validateField_errorCount (np : String → Option JSDate)
    (data : List RawRow) (column : String) (transform : FieldTransformation) :
    (validateField np data column transform).errorCount =
      data.countP (fun row => cellError np row column transform) := rfl

theorem zipWith_left (flags : List Bool) :
    ∀ data : List RawRow, flags.length = data.length →
      List.zipWith (fun b (_ : RawRow) => b) flags data = flags := by
  induction flags with
  | nil => intro data _; rfl
  | cons b bs ih =>
    intro data h
    cases data with
    | nil => simp at h
    | cons r rs => simp [ih rs (by simpa using h)]

theorem zipWith_congr_right (f g : Bool → RawRow → Bool) :
    ∀ (flags : List Bool) (data : List RawRow),
      (∀ r ∈ data, ∀ b, f b r = g b r) →
      List.zipWith f flags data = List.zipWith g flags data := by
  intro flags
  induction flags with
  | nil => intro data _; rfl
  | cons b bs ih =>
    intro data h
    cases data with
    | nil => rfl
    | cons r rs =>
      simp only [List.zipWith_cons_cons]
      rw [h r (by simp), ih rs (fun x hx => h x (by simp [hx]))]

theorem zipWith_or_comp (f g : RawRow → Bool) :
    ∀ (flags : List Bool) (data : List RawRow),
      List.zipWith (fun b row => b || g row)
          (List.zipWith (fun b row => b || f row) flags data) data =
        List.zipWith (fun b row => b || (f row || g row)) flags data := by
  intro flags
  induction flags with
  | nil => intro data; cases data <;> rfl
  | cons b bs ih =>
    intro data
    cases data with
    | nil => rfl
    | cons r rs =>
      simp only [List.zipWith_cons_cons]
      rw [ih rs, Bool.or_assoc]

theorem zipWith_or_replicate_false (f : RawRow → Bool) :
    ∀ data : List RawRow,
      List.zipWith (fun b row => b || f row)
          (List.replicate data.length false) data = data.map f := by
  intro data
  induction data with
  | nil => rfl
  | cons r rs ih =>
    simp only [List.length_cons, List.replicate_succ, List.zipWith_cons_cons,
      Bool.false_or, List.map_cons]
    rw [ih]

theorem chunkedFlags_eq_map (np : String → Option JSDate)
    (mapping : MappingEntries) (transforms : Option TransformConfig)
    (chunkSize : Nat) (hc : 0 < chunkSize) :
    ∀ (fuel : Nat) (rows : List RawRow), rows.length ≤ fuel →
      chunkedFlags np mapping transforms chunkSize fuel rows =
        rows.map (rowHasError np mapping transforms) := by
  intro fuel
  induction fuel with
  | zero =>
    intro rows hle
    have hnil : rows = [] := List.eq_nil_of_length_eq_zero (Nat.le_zero.mp hle)
    subst hnil
    rfl
  | succ n ih =>
    intro rows hle
    cases rows with
    | nil => rfl
    | cons r rs =>
      show (List.take chunkSize (r :: rs)).map (rowHasError np mapping transforms) ++
          chunkedFlags np mapping transforms chunkSize n
            (List.drop chunkSize (r :: rs)) = _
      rw [ih (List.drop chunkSize (r :: rs))
        (by
          rw [List.length_drop]
          simp only [List.length_cons] at hle ⊢
          omega)]
      rw [← List.map_append, List.take_append_drop]

theorem gvs_flags (np : String → Option JSDate) (data : List RawRow)
    (transforms : Option TransformConfig) :
    ∀ (entries : List (Field × String))
      (fr : List (Field × FieldValidationResult)) (flags : List Bool),
      flags.length = data.length →
      (entries.foldl (gvsStep np data transforms) (fr, flags)).2 =
        List.zipWith (fun b row => b || rowHasError np entries transforms row)
          flags data := by
  intro entries
  induction entries with
  | nil =>
    intro fr flags hlen
    simp only [List.foldl_nil, rowHasError, List.any_nil, Bool.or_false]
    exact (zipWith_left flags data hlen).symm
  | cons e rest ih =>
    intro fr flags hlen
    simp only [List.foldl_cons]
    by_cases he : (e.2 == "") = true
    · rw [show gvsStep np data transforms (fr, flags) e = (fr, flags) from by
        unfold gvsStep; rw [if_pos he]]
      rw [ih fr flags hlen]
      refine zipWith_congr_right _ _ flags data (fun r _ b => ?_)
      simp [rowHasError, he]
    · have hstep : gvsStep np data transforms (fr, flags) e =
          (fr ++ [(e.1, validateField np data e.2 (getTransform transforms e.2))],
            if 0 < (validateField np data e.2 (getTransform transforms e.2)).errorCount then
              List.zipWith
                (fun b row => b || cellError np row e.2 (getTransform transforms e.2))
                flags data
            else flags) := by
        unfold gvsStep
        rw [if_neg he]
      rw [hstep]
      by_cases herr :
          0 < (validateField np data e.2 (getTransform transforms e.2)).errorCount
      · rw [if_pos herr,
          ih _ _ (by rw [List.length_zipWith, hlen, Nat.min_self]),
          zipWith_or_comp]
        refine zipWith_congr_right _ _ flags data (fun r _ b => ?_)
        simp only [rowHasError, List.any_cons, he]
        simp
      · rw [if_neg herr, ih _ _ hlen]
        have hnone : ∀ r ∈ data,
            cellError np r e.2 (getTransform transforms e.2) = false := by
          rw [validateField_errorCount] at herr
          intro r hr
          have := Nat.eq_zero_of_not_pos herr
          exact Bool.eq_false_iff.mpr (List.countP_eq_zero.mp this r hr)
        refine zipWith_congr_right _ _ flags data (fun r hr b => ?_)
        simp only [rowHasError, List.any_cons, he, hnone r hr]
        simp

theorem gvs_fieldResults (np : String → Option JSDate) (data : List RawRow)
    (transforms : Option TransformConfig) :
    ∀ (entries : List (Field × String))
      (fr : List (Field × FieldValidationResult)) (flags : List Bool),
      (entries.foldl (gvsStep np data transforms) (fr, flags)).1 =
        entries.foldl
          (fun acc entry =>
            if entry.2 == "" then acc
            else
              acc ++ [(entry.1,
                validateField np data entry.2 (getTransform transforms entry.2))])
          fr := by
  intro entries
  induction entries with
  | nil => intro fr flags; rfl
  | cons e rest ih =>
    intro fr flags
    simp only [List.foldl_cons]
    by_cases he : (e.2 == "") = true
    · rw [show gvsStep np data transforms (fr, flags) e = (fr, flags) from by
        unfold gvsStep; rw [if_pos he]]
      rw [if_pos he]
      exact ih fr flags
    · rw [if_neg he]
      rw [show gvsStep np data transforms (fr, flags) e =
          (fr ++ [(e.1, validateField np data e.2 (getTransform transforms e.2))],
            if 0 < (validateField np data e.2 (getTransform transforms e.2)).errorCount then
              List.zipWith
                (fun b row => b || cellError np row e.2 (getTransform transforms e.2))
                flags data
            else flags) from by
        unfold gvsStep; rw [if_neg he]]
      exact ih _ _

/-- **C10.** For every dataset, mapping, transformation config and
positive chunk size, the chunked `validateWithProgress` returns the same
`ValidationSummary` as the unchunked `generateValidationSummary`: same
totalRows, same validRows and invalidRows (a row is invalid exactly when
some mapped column carries a non-blank cell that transforms to null under
a non-text transformation), and the same per-field fieldResults. -/
theorem claimC10 (np : String → Option JSDate) (data : List RawRow)
    (mapping : MappingEntries) (transforms : Option TransformConfig)
    (chunkSize : Nat) (hc : 0 < chunkSize) :
    validateWithProgress np data mapping transforms chunkSize =
      generateValidationSummary np data mapping transforms := by
  unfold validateWithProgress generateValidationSummary
  dsimp only
  rw [chunkedFlags_eq_map np mapping transforms chunkSize hc data.length data
      le_rfl,
    gvs_flags np data transforms mapping [] (List.replicate data.length false)
      (by simp),
    gvs_fieldResults np data transforms mapping [] (List.replicate data.length false),
    zipWith_or_replicate_false]

/-- Witness for C10: the two validators agree on a concrete two-row
dataset with the default chunk size. -/
theorem claimC10_witness :
    validateWithProgress Examples.np0 Examples.exData Examples.exEntries
        none 1000 =
      generateValidationSummary Examples.np0 Examples.exData
        Examples.exEntries none :=
  claimC10 Examples.np0 Examples.exData Examples.exEntries none 1000
    (by decide)

end GoalViz

